import Mathlib

/-!
# Verification of the pglint statement splitter and error locator

This file gives a shallow embedding of the core of `vscode-pglint`:

* `splitIntoStatements.ts` — the single-pass statement splitter with
  `@include` / `@template` directive handling (`goD`, `splitD`,
  `tryInclude`, `validateDatabaseName`, `quote`, `quotedEqual`);
* `errors.ts` — the error locator (`handleShouldContinue`,
  `buildUnreachable`, and `findQuoted`, a model of the quoted-token
  extraction regex).

Modelling conventions:

* JS strings are `List Char`; JS string offsets are `Nat` indices.
* The `vscode.Range` of a `Location` is derived from character offsets by
  the monotone injective `getPosition`; ranges are therefore represented
  directly by their character offsets (`startOffset`, `length` for
  statement locations; start/end offsets for diagnostics).
* File-system reads (`fs.stat` + `fs.readFile` + node path resolution) are
  an external collaborator; they are modelled by a `FileSys` oracle mapping
  (includer uri, trimmed directive payload) to either an error message or
  (included uri, text), exactly the information `tryInclude` extracts.
* The JS `while` loop is written as a fuel-indexed recursion `goD`
  (structural in the fuel, so that all definitions compute by `decide`).
  One unit of fuel is spent per loop iteration and one extra unit on the
  fall-through that starts a new statement; `splitD` supplies
  `2 * text.length + 2` fuel, which exceeds the iteration count on every
  input.  Include recursion is indexed by an explicit depth, decremented on
  each recursive `splitIntoStatements` call; the source performs unbounded
  recursion (it has no cycle detection), so any terminating run of the
  source is reproduced at a sufficiently large depth.
-/

namespace Pglint

set_option maxHeartbeats 1600000

/-- The apostrophe character `'`. -/
def sq : Char := Char.ofNat 39

/-- The backtick character. -/
def bq : Char := Char.ofNat 96

/-- JavaScript `\s` (the whitespace class used by `/[\s\r\n]/`, `trim`,
`trimStart`, `trimEnd`). -/
def jsWs (c : Char) : Bool :=
  c.val = 0x20 || (0x9 ≤ c.val && c.val ≤ 0xd) || c.val = 0xa0 || c.val = 0x1680 ||
  (0x2000 ≤ c.val && c.val ≤ 0x200a) || c.val = 0x2028 || c.val = 0x2029 ||
  c.val = 0x202f || c.val = 0x205f || c.val = 0x3000 || c.val = 0xfeff

/-- JS `String.prototype.trimStart`. -/
def jsTrimStart (l : List Char) : List Char := l.dropWhile jsWs

/-- JS `String.prototype.trimEnd`. -/
def jsTrimEnd (l : List Char) : List Char := (l.reverse.dropWhile jsWs).reverse

/-- JS `String.prototype.trim`. -/
def jsTrim (l : List Char) : List Char := jsTrimEnd (jsTrimStart l)

/-- The longest match of `/[^\r\n]*(\r?\n|$)/` STARTING at the current
position: the run of non-newline characters together with the line
terminator, or `none` when a bare `\r` (not followed by `\n`) blocks the
match at this position. -/
def lineTail : List Char → Option (List Char)
  | [] => some []
  | c :: rest =>
    if c = '\n' then some ['\n']
    else if c = '\r' then
      match rest with
      | '\n' :: _ => some ['\r', '\n']
      | _ => none
    else (lineTail rest).map (c :: ·)

/-- JS `s.match(/[^\r\n]*(\r?\n|$)/)?.[0] ?? ''`: the first (leftmost)
match of the line pattern.  When a bare `\r` blocks every position up to
it, the first match starts just after that `\r`. -/
def commentLineMatch : List Char → List Char
  | [] => []
  | c :: rest =>
    if c = '\n' then ['\n']
    else if c = '\r' then
      match rest with
      | '\n' :: _ => ['\r', '\n']
      | _ => commentLineMatch rest
    else
      match lineTail (c :: rest) with
      | some m => m
      | none => commentLineMatch rest

/-- Test of `INCLUDE_PREFIX = /^@include(:|\s)/`. -/
def isIncludeDirective (s : List Char) : Bool :=
  ("@include".toList).isPrefixOf s &&
    match s.drop 8 with
    | c :: _ => c = ':' || jsWs c
    | [] => false

/-- Test of `TEMPLATE_PREFIX = /^@template(:|\s)/`. -/
def isTemplateDirective (s : List Char) : Bool :=
  ("@template".toList).isPrefixOf s &&
    match s.drop 9 with
    | c :: _ => c = ':' || jsWs c
    | [] => false

/-- `s.replace(INCLUDE_PREFIX, '')`: removes the 9-character match
(`@include` plus the `:` or whitespace character) when present. -/
def stripIncludeDirective (s : List Char) : List Char :=
  if isIncludeDirective s then s.drop 9 else s

/-- `s.replace(TEMPLATE_PREFIX, '')`. -/
def stripTemplateDirective (s : List Char) : List Char :=
  if isTemplateDirective s then s.drop 10 else s

/-- `TEMPLATE_DIRECTIVE_ERROR_FIRST` from `splitIntoStatements.ts`. -/
def TEMPLATE_DIRECTIVE_ERROR_FIRST : List Char :=
  ("Only one template directive is allowed, and it must come before any other statements.").toList

/-- `[a-zA-Z_]`. -/
def isIdentStart (c : Char) : Bool := c.isAlpha || c = '_'

/-- `[a-zA-Z0-9_]`. -/
def isIdentCont (c : Char) : Bool := c.isAlpha || c.isDigit || c = '_'

/-- The internal-quote scan of `validateDatabaseName`: every `"` inside a
quoted name must be doubled (the loop skips the partner quote). -/
def quotesEscaped : List Char → Bool
  | [] => true
  | '"' :: '"' :: rest => quotesEscaped rest
  | '"' :: _ => false
  | _ :: rest => quotesEscaped rest

/-- `validateDatabaseName` from `validateDatabaseName.ts`, with a thrown
`Error` modelled as `some message`.  (The `typeof name !== 'string'` guard
is unrepresentable: every `List Char` is a string.) -/
def validateDatabaseName (name : List Char) : Option (List Char) :=
  if name.length = 0 then
    some (("Database name cannot be empty").toList)
  else if name.contains (Char.ofNat 0) then
    some (("Database name cannot contain null bytes").toList)
  else if name.headI = '"' && name.getLastI = '"' then
    -- quoted: check proper escaping over `name.slice(1, -1)`
    if quotesEscaped ((name.drop 1).dropLast) then none
    else some (("Database name contains unescaped quotes").toList)
  else
    match name with
    | c :: rest =>
      if isIdentStart c && rest.all isIdentCont then none
      else some (("Database name must either be quoted, or start with a letter or underscore and contain only letters, numbers, and underscores").toList)
    | [] => none  -- unreachable: name.length ≠ 0

/-- `quote` from `splitIntoStatements.ts`. -/
def quote (s : List Char) : List Char :=
  if s.head? = some '"' then s else '"' :: (s ++ ['"'])

/-- `quotedEqual` from `splitIntoStatements.ts`. -/
def quotedEqual (a b : List Char) : Bool := quote a = quote b

/-- `Location`: source uri plus character span.  The derived line/column
`range` is determined by (and monotone injective in) the offsets, so it is
not duplicated here. -/
structure Location where
  uri : String
  startOffset : Nat
  length : Nat
  deriving DecidableEq, Repr

/-- `Statement` from `splitIntoStatements.ts`. -/
structure Statement where
  includedAt : Option Location := none
  location : Location
  sql : Option (List Char) := none
  error : Option (List Char) := none
  template : Option (List Char) := none
  deriving DecidableEq, Repr

deriving instance DecidableEq for Except

/-- The file-system / path-resolution oracle behind `tryInclude`: given the
including unit's uri and the trimmed directive payload, either the error
message of the failed `fs.stat` / not-a-file check, or the resolved uri
and full text of the included file. -/
def FileSys : Type := String → List Char → Except (List Char) (String × List Char)

/-- `tryInclude` from `splitIntoStatements.ts` (`directive` is the text
after the matched directive marker; path normalization and resolution
happen inside the `FileSys` oracle). -/
def tryInclude (fs : FileSys) (directive : List Char) (uri : String) :
    Except (List Char) (String × List Char) :=
  if jsTrim directive = [] then
    Except.error (("include directive must be a non-empty string").toList)
  else fs uri (jsTrim directive)

/-- `[A-Za-z\u0080-￿_]`, the first character of a dollar-quote tag. -/
def isDollarTagStart (c : Char) : Bool :=
  (('A' ≤ c && c ≤ 'Z') || ('a' ≤ c && c ≤ 'z')) || c = '_' ||
    (0x80 ≤ c.val && c.val ≤ 0xffff)

/-- `[A-Za-z\u0080-￿0-9_]`, a continuation character of a dollar-quote tag. -/
def isDollarTagCont (c : Char) : Bool := isDollarTagStart c || c.isDigit

/-- `slice.match(/^\$([A-Za-z\u0080-￿_][A-Za-z\u0080-￿0-9_]*)?\$/)?.[0]`:
the opening dollar-quote tag (dollars included) when the slice starts with
one. -/
def dollarMatch : List Char → Option (List Char)
  | c0 :: rest =>
    if c0 = '$' then
      match rest with
      | c :: cs =>
        if c = '$' then some ['$', '$']
        else if isDollarTagStart c then
          match cs.dropWhile isDollarTagCont with
          | '$' :: _ => some ('$' :: c :: (cs.takeWhile isDollarTagCont ++ ['$']))
          | _ => none
        else none
      | [] => none
    else none
  | [] => none

/-- JS `String.prototype.indexOf` (first occurrence), as an option. -/
def idxOf? (pat : List Char) : List Char → Option Nat
  | [] => if pat = [] then some 0 else none
  | s@(_ :: t) => if pat.isPrefixOf s then some 0 else (idxOf? pat t).map (· + 1)

/-- The mutable locals of the `splitIntoStatements` scan loop. -/
structure ScanState where
  stmts : List Statement
  currentStart : Nat
  currentSql : List Char
  quoteChar : Option Char
  isBlockComment : Bool
  isStatement : Bool
  deriving Repr

/-- The loop state on entry to `splitIntoStatements`. -/
def initState : ScanState := ⟨[], 0, [], none, false, false⟩

/-- `nextChar === d` (with `nextChar = ''` at end of text). -/
def nextIs (rs : List Char) (d : Char) : Bool :=
  match rs with
  | x :: _ => x = d
  | [] => false

/-- The outcome of one iteration of the scan loop: either consume `drop`
characters and continue at `off` with state `st`, or return `out`
immediately (the early-`return statements` paths of the source). -/
inductive StepRes where
  | cont (drop : Nat) (off : Nat) (st : ScanState)
  | halt (out : List Statement)
  deriving Repr

/-- One iteration of the `splitIntoStatements` scan loop, at current
character `c`, remaining text `rs`, offset `offset`.  The
start-new-statement path consumes nothing and re-enters the loop with
`isStatement = true`, exactly like the source's fall-through. -/
def scanStep (fs : FileSys) (recur : String → List Char → List Statement) (uri : String)
    (c : Char) (rs : List Char) (offset : Nat) (st : ScanState) : StepRes :=
  if st.isBlockComment then
    -- handle block comments
    if c = '*' && nextIs rs '/' then
      StepRes.cont 2 (offset + 2) { st with isBlockComment := false }
    else StepRes.cont 1 (offset + 1) st
  else if !st.isStatement then
    -- process between statements
    if jsWs c then StepRes.cont 1 (offset + 1) st
    else if c = '-' && nextIs rs '-' then
      -- process line comment directive
      let rs2 := rs.drop 1
      let commentLine := commentLineMatch rs2
      let ct0 := jsTrimStart commentLine
      let startOff := (offset + 2) + (commentLine.length - ct0.length)
      let commentText := jsTrimEnd ct0
      let drop' := 2 + commentLine.length
      let offset' := offset + 2 + commentLine.length
      if !isIncludeDirective commentText && !isTemplateDirective commentText then
        StepRes.cont drop' offset' st
      else
        let location : Location := ⟨uri, startOff, commentText.length⟩
        let directive := stripTemplateDirective (stripIncludeDirective commentText)
        if isIncludeDirective commentText then
          match tryInclude fs directive uri with
          | Except.ok (includeUri, text) =>
            let includeStatements := (recur includeUri text).map
              (fun s => { s with includedAt := some location })
            StepRes.cont drop' offset' { st with stmts := st.stmts ++ includeStatements }
          | Except.error e => StepRes.halt (st.stmts ++ [{ location := location, error := some e }])
        else
          -- template directive
          let template := jsTrim directive
          match validateDatabaseName template with
          | some e => StepRes.halt (st.stmts ++ [{ location := location, error := some e }])
          | none =>
            let templateStatements := st.stmts.filter
              (fun s => match s.template with | some t => t ≠ [] | none => false)
            if st.stmts.length > 0 &&
                (templateStatements.length > 0 &&
                  templateStatements.any (fun s => !quotedEqual template (s.template.getD []))) then
              StepRes.halt
                (st.stmts ++ [{ location := location, error := some TEMPLATE_DIRECTIVE_ERROR_FIRST }])
            else
              StepRes.cont drop' offset'
                { st with stmts := st.stmts ++ [{ location := location, template := some template }] }
    else if c = '/' && nextIs rs '*' then
      StepRes.cont 2 (offset + 2) { st with isBlockComment := true }
    else
      -- start new statement, falling through into statement handling
      StepRes.cont 0 offset { st with currentStart := offset, isStatement := true }
  else
    -- handle the statement
    match st.quoteChar with
    | some q =>
      StepRes.cont 1 (offset + 1)
        { st with currentSql := st.currentSql ++ [c],
                  quoteChar := if c = q then none else some q }
    | none =>
      if c = '$' then
        -- check for dollar quote start
        match dollarMatch (c :: rs) with
        | some dollarTag =>
          match idxOf? dollarTag ((c :: rs).drop dollarTag.length) with
          | some endTagPos =>
            let quotedText := (c :: rs).take (endTagPos + dollarTag.length * 2)
            StepRes.cont quotedText.length (offset + quotedText.length)
              { st with currentSql := st.currentSql ++ quotedText }
          | none => StepRes.cont 1 (offset + 1) { st with currentSql := st.currentSql ++ [c] }
        | none => StepRes.cont 1 (offset + 1) { st with currentSql := st.currentSql ++ [c] }
      else if c = '"' || c = sq || c = bq then
        StepRes.cont 1 (offset + 1)
          { st with currentSql := st.currentSql ++ [c], quoteChar := some c }
      else if c = ';' then
        -- split on semicolons: pushStatement(offset)
        let sql' := st.currentSql ++ [';']
        let stmts' := if jsTrim sql' ≠ [] then
            st.stmts ++ [{ location := ⟨uri, st.currentStart, offset - st.currentStart⟩,
                           sql := some sql' }]
          else st.stmts
        StepRes.cont 1 (offset + 1) ⟨stmts', offset + 1, [], st.quoteChar, st.isBlockComment, false⟩
      else StepRes.cont 1 (offset + 1) { st with currentSql := st.currentSql ++ [c] }

/-- The scan loop of `splitIntoStatements`: iterate `scanStep` until the
text is exhausted, then run the final `pushStatement(offset - 1)`.
`rest` is the text from `offset` on; `recur` is the recursive
`splitIntoStatements` call used by the include branch. -/
def goD (fs : FileSys) (recur : String → List Char → List Statement) :
    Nat → String → List Char → Nat → ScanState → List Statement
  | fuel, uri, rest, offset, st =>
    match rest with
    | [] =>
      -- after the loop: `if (currentSql.trim()) pushStatement(offset - 1)`
      if jsTrim st.currentSql ≠ [] then
        st.stmts ++ [{ location := ⟨uri, st.currentStart, (offset - 1) - st.currentStart⟩,
                       sql := some st.currentSql }]
      else st.stmts
    | c :: rs =>
      match fuel with
      | 0 => st.stmts
      | fuel + 1 =>
        match scanStep fs recur uri c rs offset st with
        | StepRes.halt out => out
        | StepRes.cont k off' st' => goD fs recur fuel uri ((c :: rs).drop k) off' st'

/-- `splitIntoStatements` at explicit include depth: depth `0` is the
fuel-exhaustion artifact (reached only on include chains deeper than
`depth`, on which the source itself would not terminate). -/
def splitD : Nat → FileSys → String → List Char → List Statement
  | 0, _, _, _ => []
  | depth + 1, fs, uri, text =>
    goD fs (splitD depth fs) (2 * text.length + 2) uri text 0 initState

/-- `splitIntoStatements(uri, sql)` with file system `fs` and include
depth `depth`. -/
def splitIntoStatements (fs : FileSys) (depth : Nat) (uri : String) (text : List Char) :
    List Statement :=
  splitD depth fs uri text

/-! ## The Error Locator (`errors.ts`) -/

/-- `vscode.DiagnosticSeverity`. -/
inductive Severity where
  | error
  | warning
  | information
  | hint
  deriving DecidableEq, Repr

/-- A `vscode.Diagnostic` pushed to the collection, with its target uri.
Positions are represented by the character offsets they are derived from
(`getPosition` is monotone injective); `relatedInformation` and `source`
carry no information the claims mention and are omitted. -/
structure Diag where
  uri : String
  startOff : Nat
  endOff : Nat
  message : List Char
  severity : Severity
  unnecessary : Bool := false
  deriving DecidableEq, Repr

/-- `buildUnreachable(location, reason)` from `errors.ts`: a Hint-severity
`unreachable statements` diagnostic from `startOffset + length` to
`getLastPositionInFile` (the position of offset `fileLength - 1`),
tagged `Unnecessary`. -/
def buildUnreachable (fileLen : String → Nat) (location : Location) : Diag :=
  { uri := location.uri,
    startOff := location.startOffset + location.length,
    endOff := fileLen location.uri - 1,
    message := ("unreachable statements").toList,
    severity := Severity.hint,
    unnecessary := true }

/-- `\w`. -/
def isWordChar (c : Char) : Bool := c.isAlpha || c.isDigit || c = '_'

/-- First alternative of the quoted-token regex:
`operator does not exist: \w+\s+([^\s]+)` anchored at this position. -/
def quotedAlt1 (s : List Char) : Option (List Char) :=
  let lit := ("operator does not exist: ").toList
  if lit.isPrefixOf s then
    let r := s.drop lit.length
    let w := r.takeWhile isWordChar
    if w = [] then none
    else
      let r2 := r.drop w.length
      let sp := r2.takeWhile jsWs
      if sp = [] then none
      else
        let r3 := r2.drop sp.length
        let cap := r3.takeWhile (fun c => !jsWs c)
        if cap = [] then none else some cap
  else none

/-- Second alternative: `column "?((?:[^"]+))"?` anchored at this position. -/
def quotedAlt2 (s : List Char) : Option (List Char) :=
  let lit := ("column ").toList
  if lit.isPrefixOf s then
    let r := s.drop lit.length
    let r1 := match r with
      | '"' :: t => t
      | _ => r
    let cap := r1.takeWhile (· ≠ '"')
    if cap = [] then none else some cap
  else none

/-- Third alternative: `(?:.*)"([^"]+)"(?!.*")` anchored at this position:
succeeds when at least two double quotes remain and the last two are
non-adjacent, capturing the text between them. -/
def quotedAlt3 (s : List Char) : Option (List Char) :=
  let rev := s.reverse
  let a := rev.dropWhile (· ≠ '"')
  match a with
  | '"' :: a2 =>
    let b := a2.takeWhile (· ≠ '"')
    match a2.dropWhile (· ≠ '"') with
    | '"' :: _ => if b = [] then none else some b.reverse
    | _ => none
  | _ => none

/-- Leftmost-match scan of
`/operator does not exist: \w+\s+([^\s]+)|column "?((?:[^"]+))"?|(?:.*)"([^"]+)"(?!.*")/`
with `quoted = match[1] ?? match[2] ?? match[3]` — alternatives tried in
order at each position, positions left to right. -/
def findQuoted : List Char → Option (List Char)
  | [] => none
  | s@(_ :: t) =>
    match quotedAlt1 s with
    | some q => some q
    | none =>
      match quotedAlt2 s with
      | some q => some q
      | none =>
        match quotedAlt3 s with
        | some q => some q
        | none => findQuoted t

/-- `[a-z0-9_"]` with the `i` flag — the character class whose complement
(or end of string) delimits the fallback span `/[^a-z0-9_"]|$/i`. -/
def isInnerSpanChar (c : Char) : Bool := c.isAlpha || c.isDigit || c = '_' || c = '"'

/-- `StatementError.handleShouldContinue` from `errors.ts`: the diagnostics
pushed (in push order, each with its target uri) and the returned Bool.
`position` is the parsed backend position when present; `fileLen` is the
`FILE_LENGTHS_CACHE` backing `getLastPositionInFile`. -/
def handleShouldContinue (warnWholeStatement : Bool) (fileLen : String → Nat)
    (stmt : Statement) (message : List Char) (hint : Option (List Char))
    (position : Option Int) : List Diag × Bool :=
  let messageWithHint := match hint with
    | some h => if h = [] then message else message ++ ("; Hint: ").toList ++ h
    | none => message
  let location := stmt.location
  let sql := stmt.sql.getD []
  let innerOffset : Option Int := position.map (· - 1)
  let includedDiagnostic : Option Diag := stmt.includedAt.map (fun inc =>
    { uri := inc.uri, startOff := inc.startOffset, endOff := inc.startOffset + inc.length,
      message := ("In included file: ").toList ++ message ++ [' '],
      severity := Severity.error })
  let statementDiagnostic : Diag :=
    { uri := location.uri, startOff := location.startOffset,
      endOff := location.startOffset + location.length,
      message := ("In this statement: ").toList ++ message ++ [Char.ofNat 125],
      severity := Severity.warning }
  let sourceUnreachable := buildUnreachable fileLen location
  let quoted := findQuoted message
  if quoted.isSome || innerOffset.isSome then
    -- `const rest = sql.substring(innerOffset ?? 0)` (substring clamps)
    let rest := sql.drop (innerOffset.getD 0).toNat
    let offLen : Option Int × Nat := match quoted with
      | some qd =>
        let quotedOffset : Int :=
          max ((idxOf? qd rest).elim (-1) (Int.ofNat))
              ((idxOf? qd (rest.map Char.toLower)).elim (-1) (Int.ofNat))
        let innerOffset' := if quotedOffset > -1 then
            match innerOffset with
            | some i => if i ≠ 0 then some (i + quotedOffset) else some quotedOffset
            | none => some quotedOffset
          else innerOffset
        (innerOffset', qd.length)
      | none =>
        let innerEnd := (rest.findIdx? (fun c => !isInnerSpanChar c)).getD rest.length
        (innerOffset, innerEnd)
    let length := max 1 offLen.2
    let innerStart := ((location.startOffset : Int) + (offLen.1.getD 0)).toNat
    let innerDiagnostic : Diag :=
      { uri := location.uri, startOff := innerStart, endOff := innerStart + length,
        message := messageWithHint, severity := Severity.error }
    let out := [sourceUnreachable, innerDiagnostic] ++
      (if warnWholeStatement then [statementDiagnostic] else [])
    let out := out ++ (match stmt.includedAt, includedDiagnostic with
      | some inc, some incD => [incD, buildUnreachable fileLen inc]
      | _, _ => [])
    (out, false)
  else
    let d := { statementDiagnostic with severity := Severity.error, message := messageWithHint }
    ([sourceUnreachable, d] ++ (match includedDiagnostic with
      | some incD => [incD]
      | none => []), false)

/-! ## C10: `validateDatabaseName` rejection characterisation -/

/-- The unquoted-identifier pattern `/^[a-zA-Z_][a-zA-Z0-9_]*$/`, as the
claim states it. -/
def matchesUnquotedName (s : List Char) : Bool :=
  match s with
  | [] => false
  | c :: rest => isIdentStart c && rest.all isIdentCont

/-- Claim-side condition: the name starts and ends with `"` (the two ends
may be the same character). -/
def claimIsQuoted (name : List Char) : Prop :=
  name.head? = some '"' ∧ name.getLast? = some '"'

instance (name : List Char) : Decidable (claimIsQuoted name) := by
  unfold claimIsQuoted; infer_instance

/-! ## Concrete scenarios used by closed theorems -/

/-- A file system on which every include fails (no files exist). -/
def fsEmpty : FileSys := fun _ _ => Except.error (("ENOENT").toList)

/-- A placeholder statement (used only to total-ise `head?`). -/
def dummyStatement : Statement := { location := ⟨"", 0, 0⟩ }

/-- The statement text of the C7 scenario. -/
def c7text : List Char := ("SELECT * FROM foo WHERE bar = 1;").toList

/-- The backend message of the C7 scenario. -/
def c7msg : List Char := ("column \"bar\" does not exist").toList

/-- The single statement the splitter produces from `c7text`. -/
def c7stmt : Statement :=
  ((splitIntoStatements fsEmpty 1 ("file.sql") c7text).head?).getD dummyStatement

/-- The `FILE_LENGTHS_CACHE` of the C7 scenario: one unit of 32 characters. -/
def c7fileLen : String → Nat := fun _ => c7text.length

/-- The error locator output of the C7 scenario (no backend position, no
hint, default configuration `warnWholeStatement = true`). -/
def c7out : List Diag × Bool := handleShouldContinue true c7fileLen c7stmt c7msg none none

/-- No carriage return or line feed, so the text fits inside one line
comment. -/
def noNewline (t : List Char) : Bool := t.all (fun c => !(c = '\r') && !(c = '\n'))

/-- A standalone `-- @include:<payload>` line. -/
def includeLine (p : List Char) : List Char := ("-- @include:").toList ++ p ++ ['\n']

/-- A standalone `-- @template <name>` line. -/
def templateLine (nm : List Char) : List Char := ("-- @template ").toList ++ nm ++ ['\n']

/-- The two-level include chain of the C3 scenario: `r` includes `a.sql`,
which includes `b.sql`, which holds one plain statement. -/
def fsChain : FileSys := fun u d =>
  if u = "r" && d = (("a.sql").toList) then Except.ok ("a", includeLine (("b.sql").toList))
  else if u = "a" && d = (("b.sql").toList) then Except.ok ("b", ("SELECT 1;").toList)
  else Except.error (("ENOENT").toList)

/-- Sets `includedAt` the way the include branch does on every statement
returned by the recursive call. -/
def setIncludedAt (loc : Location) (s : Statement) : Statement :=
  { s with includedAt := some loc }

/-- JS truthiness of `s.template` (`!!s.template`). -/
def hasTemplateStmt (s : Statement) : Bool :=
  match s.template with
  | some t => t ≠ []
  | none => false

/-- The duplicate-template test of the template branch:
`statements.length > 0 && templateStatements.length > 0 &&
templateStatements.some(s => !quotedEqual(template, s.template!))`. -/
def templateConflict (nm : List Char) (A : List Statement) : Bool :=
  A.length > 0 &&
    ((A.filter hasTemplateStmt).length > 0 &&
      (A.filter hasTemplateStmt).any (fun s => !quotedEqual nm (s.template.getD [])))

/-! ## A grammar of statement-segment texts

To state the splitter's segmentation properties we build input texts from
explicit segments: leading trivia (whitespace and comments recognised
between statements), a body of tokens (plain characters, simple-quoted
spans, dollar-quoted spans), and a terminating top-level `;`.  Well-formed
constraints mirror exactly the conditions under which the scanner consumes
each construct atomically. -/

/-- The three simple quote characters of the scanner. -/
def isSimpleQuote (c : Char) : Bool := c = '"' || c = sq || c = bq

/-- A body token of a statement segment. -/
inductive Tok where
  | plain (c : Char)
  | quoted (q : Char) (inner : List Char)
  | dollar (tag : List Char) (inner : List Char)
  deriving Repr

/-- The text of a token: `c`, `q⟨inner⟩q`, or `$tag$⟨inner⟩$tag$`. -/
def Tok.render : Tok → List Char
  | .plain c => [c]
  | .quoted q inner => q :: (inner ++ [q])
  | .dollar tag inner =>
    ('$' :: (tag ++ ['$'])) ++ inner ++ ('$' :: (tag ++ ['$']))

/-- The tag grammar of the dollar-quote regex (possibly empty). -/
def dollarTagWf : List Char → Bool
  | [] => true
  | c :: cs => isDollarTagStart c && cs.all isDollarTagCont

/-- Well-formedness: a plain character is none of the characters the
statement scanner treats specially; a quoted span's inner text does not
contain its quote; a dollar span's closing tag is the first occurrence of
the tag after the opening one. -/
def Tok.wf : Tok → Bool
  | .plain c => !(c = ';' || c = '"' || c = sq || c = bq || c = '$')
  | .quoted q inner => isSimpleQuote q && !inner.contains q
  | .dollar tag inner =>
    dollarTagWf tag &&
      idxOf? ('$' :: (tag ++ ['$'])) (inner ++ ('$' :: (tag ++ ['$']))) = some inner.length

/-- Scan-loop iterations consumed by one token. -/
def Tok.fuel : Tok → Nat
  | .plain _ => 1
  | .quoted _ inner => inner.length + 2
  | .dollar _ _ => 1

/-- Leading trivia before a statement: a whitespace character, a
non-directive line comment, or a block comment. -/
inductive Lead where
  | ws (c : Char)
  | line (t : List Char)
  | block (t : List Char)
  deriving Repr

/-- The text of a trivia item. -/
def Lead.render : Lead → List Char
  | .ws c => [c]
  | .line t => '-' :: ('-' :: (t ++ ['\n']))
  | .block t => '/' :: ('*' :: (t ++ ['*', '/']))

/-- Whether `*/` occurs in the text (which would close a block comment
early). -/
def hasStarSlash : List Char → Bool
  | [] => false
  | c :: rest => (c = '*' && nextIs rest '/') || hasStarSlash rest

/-- Well-formedness of trivia: genuine whitespace; a comment line with no
newline whose trimmed text is not a directive; block text without `*/`. -/
def Lead.wf : Lead → Bool
  | .ws c => jsWs c
  | .line t => noNewline t && !isIncludeDirective (jsTrim t) && !isTemplateDirective (jsTrim t)
  | .block t => !hasStarSlash t

/-- Scan-loop iterations consumed by one trivia item. -/
def Lead.fuel : Lead → Nat
  | .ws _ => 1
  | .line _ => 1
  | .block t => t.length + 2

/-- One `;`-terminated segment: trivia, then body tokens, then `;`. -/
structure Seg where
  lead : List Lead
  body : List Tok
  deriving Repr

/-- The trivia text of a segment. -/
def Seg.leadText (s : Seg) : List Char := (s.lead.map Lead.render).flatten

/-- The body text of a segment (the statement text without its `;`). -/
def Seg.bodyText (s : Seg) : List Char := (s.body.map Tok.render).flatten

/-- The full text of a segment, closing `;` included. -/
def Seg.render (s : Seg) : List Char := s.leadText ++ (s.bodyText ++ [';'])

/-- The body must not begin with whitespace, `--`, or `/*`, which the
between-statements state would consume instead of starting a statement. -/
def bodyStartOk : List Char → Bool
  | [] => true
  | c :: rest => !jsWs c && !(c = '-' && nextIs rest '-') && !(c = '/' && nextIs rest '*')

/-- Well-formedness of a segment. -/
def Seg.wf (s : Seg) : Bool :=
  s.lead.all Lead.wf && s.body.all Tok.wf && bodyStartOk s.bodyText

/-- Scan-loop iterations for one segment: its trivia, the statement-start
fall-through, its body tokens, and the `;`. -/
def Seg.fuel (s : Seg) : Nat :=
  (s.lead.map Lead.fuel).sum + ((s.body.map Tok.fuel).sum + 2)

/-- The Statement the splitter emits for a segment whose trivia begins at
offset `o`: located at the body (semicolon excluded from the span), with
the semicolon included in the sql text. -/
def Seg.stmt (uri : String) (o : Nat) (s : Seg) : Statement :=
  { location := ⟨uri, o + s.leadText.length, s.bodyText.length⟩,
    sql := some (s.bodyText ++ [';']) }

/-- The full text of a segment list. -/
def segsText (l : List Seg) : List Char := (l.map Seg.render).flatten

/-- Total scan-loop iterations of a segment list. -/
def segsFuel (l : List Seg) : Nat := (l.map Seg.fuel).sum

/-- The text of a trivia list. -/
def leadsText (l : List Lead) : List Char := (l.map Lead.render).flatten

/-- Total scan-loop iterations of a trivia list. -/
def leadsFuel (l : List Lead) : Nat := (l.map Lead.fuel).sum

/-- The statements predicted for a segment list starting at offset `o`:
one Statement per segment, including segments with empty bodies (which
yield a bare `;` statement of span length 0). -/
def predictedStmts (uri : String) : Nat → List Seg → List Statement
  | _, [] => []
  | o, s :: rest => Seg.stmt uri o s :: predictedStmts uri (o + s.render.length) rest

/-- The `currentStart` of the scan state after consuming a segment list
from offset `offset` with previous value `cs` (`pushStatement` resets it
after each segment). -/
def segsEndStart (cs offset : Nat) (l : List Seg) : Nat :=
  match l with
  | [] => cs
  | _ :: _ => offset + (segsText l).length


/-- A run of plain characters as body tokens. -/
def plainToks (s : List Char) : List Tok := s.map Tok.plain

/-- The two segments of `SELECT 1; SELECT 2;`. -/
def c1segs : List Seg :=
  [⟨[], plainToks (("SELECT 1").toList)⟩, ⟨[Lead.ws ' '], plainToks (("SELECT 2").toList)⟩]

/-- The two segments of `SELECT <q>;<q>; SELECT 2;` with `<q>` the single
quote: the first body carries a quoted token whose inner text is `;`. -/
def c2segs : List Seg :=
  [⟨[], plainToks (("SELECT ").toList) ++ [Tok.quoted sq [';']]⟩,
   ⟨[Lead.ws ' '], plainToks (("SELECT 2").toList)⟩]

/-! ## Theorems -/

/-! ### Scan-loop unfolding and comment-line lemmas -/

theorem goD_nil (fs : FileSys) (recur : String → List Char → List Statement)
    (fuel : Nat) (uri : String) (offset : Nat) (st : ScanState) :
    goD fs recur fuel uri [] offset st =
      if jsTrim st.currentSql ≠ [] then
        st.stmts ++ [{ location := ⟨uri, st.currentStart, (offset - 1) - st.currentStart⟩,
                       sql := some st.currentSql }]
      else st.stmts := by
  cases fuel <;> rfl

theorem goD_cons (fs : FileSys) (recur : String → List Char → List Statement)
    (fuel : Nat) (uri : String) (c : Char) (rs : List Char) (offset : Nat) (st : ScanState) :
    goD fs recur (fuel + 1) uri (c :: rs) offset st =
      match scanStep fs recur uri c rs offset st with
      | StepRes.halt out => out
      | StepRes.cont k off' st' => goD fs recur fuel uri ((c :: rs).drop k) off' st' := rfl

theorem lineTail_clean (t rest : List Char)
    (h : ∀ c ∈ t, ¬(c = '\r') ∧ ¬(c = '\n')) :
    lineTail (t ++ '\n' :: rest) = some (t ++ ['\n']) := by
  induction t with
  | nil => simp [lineTail]
  | cons c t ih =>
    have hc := h c (by simp)
    simp [lineTail, hc.1, hc.2, ih (fun d hd => h d (by simp [hd]))]

theorem commentLineMatch_clean (t rest : List Char)
    (h : ∀ c ∈ t, ¬(c = '\r') ∧ ¬(c = '\n')) :
    commentLineMatch (t ++ '\n' :: rest) = t ++ ['\n'] := by
  cases t with
  | nil => simp [commentLineMatch]
  | cons c t' =>
    have hc := h c (by simp)
    have hl := lineTail_clean (c :: t') rest h
    simp only [List.cons_append] at hl ⊢
    simp [commentLineMatch, hc.1, hc.2, hl]

theorem jsTrimEnd_nl (p : List Char) : jsTrimEnd (p ++ ['\n']) = jsTrimEnd p := by
  simp [jsTrimEnd, List.reverse_append, List.dropWhile_cons,
    (by decide : jsWs ('\n') = true)]

theorem jsTrimEnd_append (a b : List Char) (x : Char) (hx : jsWs x = false) :
    jsTrimEnd ((a ++ [x]) ++ b) = (a ++ [x]) ++ jsTrimEnd b := by
  unfold jsTrimEnd
  rw [List.reverse_append, List.dropWhile_append]
  by_cases hb : (List.dropWhile jsWs b.reverse).isEmpty
  · simp_all [List.dropWhile_cons, hx, List.reverse_append]
  · simp_all [List.reverse_append]

theorem jsTrimEnd_eq_self (a : List Char) (x : Char) (hx : jsWs x = false) :
    jsTrimEnd (a ++ [x]) = a ++ [x] := by
  have := jsTrimEnd_append a [] x hx
  simpa using this

theorem noNewline_mem (p : List Char) (hp : noNewline p = true) :
    ∀ c ∈ p, ¬(c = '\r') ∧ ¬(c = '\n') := by
  intro c hc
  have := List.all_eq_true.mp hp c hc
  simp at this
  exact this

/-! ### The `@include` directive line -/

set_option maxHeartbeats 1000000 in
theorem scanStep_include (fs : FileSys) (recur : String → List Char → List Statement)
    (uri : String) (p rest : List Char) (offset : Nat) (A : List Statement) (cs : Nat)
    (hp : noNewline p = true)
    (hnt : isTemplateDirective (jsTrimEnd p) = false) :
    scanStep fs recur uri '-' ('-' :: ((" @include:").toList ++ (p ++ '\n' :: rest)))
        offset ⟨A, cs, [], none, false, false⟩ =
      (match tryInclude fs (jsTrimEnd p) uri with
        | Except.ok (includeUri, text) =>
          StepRes.cont (13 + p.length) (offset + (13 + p.length))
            ⟨A ++ ((recur includeUri text).map
                (setIncludedAt ⟨uri, offset + 3, 9 + (jsTrimEnd p).length⟩)),
              cs, [], none, false, false⟩
        | Except.error e =>
          StepRes.halt
            (A ++ [{ location := ⟨uri, offset + 3, 9 + (jsTrimEnd p).length⟩, error := some e }])) := by
  have hconc : ∀ c ∈ ((" @include:").toList : List Char), ¬(c = '\r') ∧ ¬(c = '\n') := by decide
  have hmem : ∀ c ∈ ((" @include:").toList ++ p), ¬(c = '\r') ∧ ¬(c = '\n') := by
    intro c hc
    rcases List.mem_append.mp hc with h | h
    · exact hconc c h
    · exact noNewline_mem p hp c h
  have hclm : commentLineMatch ((" @include:").toList ++ (p ++ '\n' :: rest)) =
      (" @include:").toList ++ (p ++ ['\n']) := by
    have := commentLineMatch_clean ((" @include:").toList ++ p) rest hmem
    simpa [List.append_assoc] using this
  have hct0 : jsTrimStart ((" @include:").toList ++ (p ++ ['\n'])) =
      ("@include:").toList ++ (p ++ ['\n']) := by
    simp [jsTrimStart, List.dropWhile_cons, jsWs]
  have hct : jsTrimEnd (("@include:").toList ++ (p ++ ['\n'])) =
      ("@include:").toList ++ jsTrimEnd p := by
    have h1 : (("@include:").toList : List Char) = ("@include").toList ++ [':'] := by decide
    rw [h1, jsTrimEnd_append _ _ ':' (by decide), jsTrimEnd_nl]
  have hinc : isIncludeDirective (("@include:").toList ++ jsTrimEnd p) = true := rfl
  have htmp : isTemplateDirective (("@include:").toList ++ jsTrimEnd p) = false := rfl
  have hstripI : stripIncludeDirective (("@include:").toList ++ jsTrimEnd p) = jsTrimEnd p := by
    unfold stripIncludeDirective
    rw [hinc]
    rfl
  have hstripT : stripTemplateDirective (jsTrimEnd p) = jsTrimEnd p := by
    unfold stripTemplateDirective
    rw [hnt]
    simp
  have hws : jsWs ('-') = false := by decide
  simp at hclm hct0 hct hinc htmp hstripI hstripT
  unfold scanStep
  simp [hws, nextIs, hclm, hct0, hct, hinc, htmp, hstripI, hstripT, setIncludedAt]
  have e9 : ∀ n : Nat, n + 1 + 1 + 1 + 1 + 1 + 1 + 1 + 1 + 1 = 9 + n := by intro n; omega
  have e13 : ∀ n : Nat, 2 + (n + 1 + 1 + 1 + 1 + 1 + 1 + 1 + 1 + 1 + 1 + 1) = 13 + n := by
    intro n; omega
  have e13b : ∀ o n : Nat, o + 2 + (n + 1 + 1 + 1 + 1 + 1 + 1 + 1 + 1 + 1 + 1 + 1) = o + (13 + n) := by
    intro o n; omega
  have e3 : offset + 2 + 1 = offset + 3 := by omega
  simp only [e9, e13, e13b, e3]
  cases htr : tryInclude fs (jsTrimEnd p) uri with
  | ok v => cases v with
    | mk u2 txt =>
      simp
      exact ⟨by omega, by omega, fun a _ => rfl⟩
  | error e =>
    simp


/-- Scanning a full `-- @include:<p>` line from a between-statements
state: on resolution failure the scan halts with one error Statement;
on success the recursive split result (with `includedAt` overwritten to
the directive Location) is appended and scanning continues. -/
theorem goD_include (fs : FileSys) (recur : String → List Char → List Statement)
    (fuel : Nat) (uri : String) (p rest : List Char) (offset : Nat)
    (A : List Statement) (cs : Nat)
    (hp : noNewline p = true)
    (hnt : isTemplateDirective (jsTrimEnd p) = false) :
    goD fs recur (fuel + 1) uri (includeLine p ++ rest) offset ⟨A, cs, [], none, false, false⟩ =
      (match tryInclude fs (jsTrimEnd p) uri with
        | Except.ok (u2, txt) =>
          goD fs recur fuel uri rest (offset + (13 + p.length))
            ⟨A ++ ((recur u2 txt).map (setIncludedAt ⟨uri, offset + 3, 9 + (jsTrimEnd p).length⟩)),
              cs, [], none, false, false⟩
        | Except.error e =>
          A ++ [{ location := ⟨uri, offset + 3, 9 + (jsTrimEnd p).length⟩, error := some e }]) := by
  have hshape : includeLine p ++ rest =
      '-' :: ('-' :: ((" @include:").toList ++ (p ++ '\n' :: rest))) := by
    simp [includeLine]
  rw [hshape, goD_cons, scanStep_include fs recur uri p rest offset A cs hp hnt]
  cases htr : tryInclude fs (jsTrimEnd p) uri with
  | ok v =>
    cases v with
    | mk u2 txt =>
      have hdrop : ('-' :: ('-' :: ((" @include:").toList ++ (p ++ '\n' :: rest)))).drop
          (13 + p.length) = rest := by
        rw [← hshape]
        have hlen : (includeLine p).length = 13 + p.length := by
          simp [includeLine]
          omega
        rw [← hlen, List.drop_left]
      simp at hdrop
      simp [hdrop]
  | error e => simp

/-- A unit whose whole text is one `-- @include:<p>` line that resolves:
its split is the included split with `includedAt` overwritten. -/
theorem splitD_single_include (fs : FileSys) (d : Nat) (uri : String) (p : List Char)
    (u2 : String) (txt : List Char)
    (hp : noNewline p = true)
    (hnt : isTemplateDirective (jsTrimEnd p) = false)
    (hok : tryInclude fs (jsTrimEnd p) uri = Except.ok (u2, txt)) :
    splitD (d + 1) fs uri (includeLine p) =
      (splitD d fs u2 txt).map (setIncludedAt ⟨uri, 3, 9 + (jsTrimEnd p).length⟩) := by
  have h0 : splitD (d + 1) fs uri (includeLine p) =
      goD fs (splitD d fs) (2 * (includeLine p).length + 2) uri (includeLine p) 0 initState := rfl
  rw [h0]
  have h1 : (includeLine p) = includeLine p ++ [] := by simp
  rw [h1]
  have h2 : 2 * (includeLine p ++ []).length + 2 = (2 * (includeLine p ++ []).length + 1) + 1 := rfl
  rw [h2]
  rw [show (initState : ScanState) = ⟨[], 0, [], none, false, false⟩ from rfl]
  rw [goD_include fs (splitD d fs) _ uri p [] 0 [] 0 hp hnt, hok]
  simp [goD_nil, jsTrim, jsTrimStart, jsTrimEnd]


/-- C3 counterexample: in the depth-2 chain (root `r` includes `a.sql`,
which includes `b.sql`), the statement produced from the deepest file
carries `includedAt = ⟨"r", 3, 14⟩` — the directive in the ROOT file —
because the include branch overwrites `includedAt` on every statement of
the recursive result; it does not carry the nearest enclosing directive
`⟨"a", 3, 14⟩` (whose location the middle conjunct exhibits by splitting
`a` directly). -/
theorem C3_counterexample :
    (splitIntoStatements fsChain 3 "r" (includeLine (("a.sql").toList))).map
        (fun s => s.includedAt) = [some ⟨"r", 3, 14⟩] ∧
    (splitIntoStatements fsChain 2 "a" (includeLine (("b.sql").toList))).map
        (fun s => s.includedAt) = [some ⟨"a", 3, 14⟩] ∧
    ∀ s ∈ splitIntoStatements fsChain 3 "r" (includeLine (("a.sql").toList)),
      ¬ s.includedAt = some ⟨"a", 3, 14⟩ := by
  decide

/-- C3 amended: for a valid include chain of depth 2, every statement
produced from the deepest file carries a non-null `includedAt` holding the
Location of the `@include` directive in the ROOT (outermost) file — each
level of the recursion overwrites `includedAt` on all statements it
splices in, so the outermost directive wins, not the nearest one. -/
theorem C3_amended_outermost_include (fs : FileSys) (d : Nat) (bText : List Char)
    (hr : fs "r" (("a.sql").toList) = Except.ok ("a", includeLine (("b.sql").toList)))
    (ha : fs "a" (("b.sql").toList) = Except.ok ("b", bText)) :
    splitIntoStatements fs (d + 3) "r" (includeLine (("a.sql").toList)) =
      (splitIntoStatements fs (d + 1) "b" bText).map (setIncludedAt ⟨"r", 3, 14⟩) := by
  have htryR : tryInclude fs (jsTrimEnd (("a.sql").toList)) "r" =
      Except.ok ("a", includeLine (("b.sql").toList)) := by
    unfold tryInclude
    rw [show jsTrimEnd (("a.sql").toList) = ("a.sql").toList from by decide]
    rw [show jsTrim (("a.sql").toList) = ("a.sql").toList from by decide]
    simpa using hr
  have htryA : tryInclude fs (jsTrimEnd (("b.sql").toList)) "a" =
      Except.ok ("b", bText) := by
    unfold tryInclude
    rw [show jsTrimEnd (("b.sql").toList) = ("b.sql").toList from by decide]
    rw [show jsTrim (("b.sql").toList) = ("b.sql").toList from by decide]
    simpa using ha
  have o1 := splitD_single_include fs (d + 2) "r" (("a.sql").toList) "a"
    (includeLine (("b.sql").toList)) (by decide) (by decide) htryR
  have o2 := splitD_single_include fs (d + 1) "a" (("b.sql").toList) "b"
    bText (by decide) (by decide) htryA
  rw [show (9 + (jsTrimEnd (("a.sql").toList)).length) = 14 from by decide] at o1
  rw [show (9 + (jsTrimEnd (("b.sql").toList)).length) = 14 from by decide] at o2
  unfold splitIntoStatements
  rw [show d + 3 = d + 2 + 1 from rfl, o1, show d + 2 = d + 1 + 1 from rfl, o2,
    List.map_map]
  rfl

/-- C3 witness: the amended theorem applied to the concrete chain
`fsChain`. -/
theorem C3_witness :
    splitIntoStatements fsChain 3 "r" (includeLine (("a.sql").toList)) =
      (splitIntoStatements fsChain 1 "b" (("SELECT 1;").toList)).map
        (setIncludedAt ⟨"r", 3, 14⟩) := by
  exact C3_amended_outermost_include fsChain 0 (("SELECT 1;").toList) (by decide) (by decide)

/-- C4: when an `@include` directive fails to resolve (empty payload,
missing file, or not-a-file — any `tryInclude` error), the splitter
returns exactly one Statement, with `error` set, located at the directive
(offset 3, the trimmed comment text), and produces no further statements
regardless of trailing content; in particular the source
`-- @include missing.sql` plus trailing text yields exactly one error
Statement. -/
theorem C4_include_failure :
    (∀ (fs : FileSys) (depth : Nat) (uri : String) (p rest e : List Char),
        noNewline p = true → isTemplateDirective (jsTrimEnd p) = false →
        tryInclude fs (jsTrimEnd p) uri = Except.error e →
        splitIntoStatements fs (depth + 1) uri (includeLine p ++ rest) =
          [{ location := ⟨uri, 3, 9 + (jsTrimEnd p).length⟩, error := some e }])
    ∧ splitIntoStatements fsEmpty 1 "u"
        (("-- @include missing.sql").toList ++ ("\nSELECT 1; trailing text").toList) =
      [{ location := ⟨"u", 3, 20⟩, error := some (("ENOENT").toList) }] := by
  constructor
  · intro fs depth uri p rest e hp hnt herr
    have h0 : splitIntoStatements fs (depth + 1) uri (includeLine p ++ rest) =
        goD fs (splitD depth fs) (2 * (includeLine p ++ rest).length + 2) uri
          (includeLine p ++ rest) 0 initState := rfl
    have h2 : 2 * (includeLine p ++ rest).length + 2 =
        (2 * (includeLine p ++ rest).length + 1) + 1 := rfl
    rw [h0, h2, show (initState : ScanState) = ⟨[], 0, [], none, false, false⟩ from rfl,
      goD_include fs (splitD depth fs) _ uri p rest 0 [] 0 hp hnt, herr]
    simp
  · decide

/-- C4 witness: the general include-failure theorem applied on the empty
file system with payload `missing.sql` and trailing text. -/
theorem C4_witness :
    splitIntoStatements fsEmpty 1 "u"
        (includeLine (("missing.sql").toList) ++ ("\nSELECT 1;").toList) =
      [{ location := ⟨"u", 3, 9 + (jsTrimEnd (("missing.sql").toList)).length⟩,
         error := some (("ENOENT").toList) }] := by
  exact C4_include_failure.1 fsEmpty 0 "u" (("missing.sql").toList) (("\nSELECT 1;").toList)
    (("ENOENT").toList) (by decide) (by decide) (by decide)

set_option maxHeartbeats 1000000 in
theorem jsTrimEnd_ws (p : List Char) (w : Char) (hw : jsWs w = true) :
    jsTrimEnd (p ++ [w]) = jsTrimEnd p := by
  simp [jsTrimEnd, List.reverse_append, List.dropWhile_cons, hw]

set_option maxHeartbeats 1000000 in
/-- Scanning a full `-- @template <nm>` line from a between-statements
state (for a clean name: no newlines, trim-stable, nonempty). -/
theorem scanStep_template (fs : FileSys) (recur : String → List Char → List Statement)
    (uri : String) (nm rest : List Char) (offset : Nat) (A : List Statement) (cs : Nat)
    (hn : noNewline nm = true)
    (hE : jsTrimEnd nm = nm)
    (hS : jsTrim nm = nm)
    (hne : nm ≠ []) :
    scanStep fs recur uri '-' ('-' :: ((" @template ").toList ++ (nm ++ '\n' :: rest)))
        offset ⟨A, cs, [], none, false, false⟩ =
      (match validateDatabaseName nm with
        | some e =>
          StepRes.halt
            (A ++ [{ location := ⟨uri, offset + 3, 10 + nm.length⟩, error := some e }])
        | none =>
          if A.length > 0 &&
              ((A.filter (fun s => match s.template with | some t => t ≠ [] | none => false)).length > 0 &&
                (A.filter (fun s => match s.template with | some t => t ≠ [] | none => false)).any
                  (fun s => !quotedEqual nm (s.template.getD []))) then
            StepRes.halt
              (A ++ [{ location := ⟨uri, offset + 3, 10 + nm.length⟩,
                       error := some TEMPLATE_DIRECTIVE_ERROR_FIRST }])
          else
            StepRes.cont (14 + nm.length) (offset + (14 + nm.length))
              ⟨A ++ [{ location := ⟨uri, offset + 3, 10 + nm.length⟩, template := some nm }],
                cs, [], none, false, false⟩) := by
  have hconc : ∀ c ∈ ((" @template ").toList : List Char), ¬(c = '\r') ∧ ¬(c = '\n') := by decide
  have hmem : ∀ c ∈ ((" @template ").toList ++ nm), ¬(c = '\r') ∧ ¬(c = '\n') := by
    intro c hc
    rcases List.mem_append.mp hc with h | h
    · exact hconc c h
    · exact noNewline_mem nm hn c h
  have hclm : commentLineMatch ((" @template ").toList ++ (nm ++ '\n' :: rest)) =
      (" @template ").toList ++ (nm ++ ['\n']) := by
    have := commentLineMatch_clean ((" @template ").toList ++ nm) rest hmem
    simpa [List.append_assoc] using this
  have hct0 : jsTrimStart ((" @template ").toList ++ (nm ++ ['\n'])) =
      ("@template ").toList ++ (nm ++ ['\n']) := by
    simp [jsTrimStart, List.dropWhile_cons, jsWs]
  have hct : jsTrimEnd (("@template ").toList ++ (nm ++ ['\n'])) =
      ("@template ").toList ++ nm := by
    have h1 : ("@template ").toList ++ (nm ++ ['\n']) =
        (("@template ").toList ++ nm) ++ ['\n'] := by simp
    rw [h1, jsTrimEnd_nl]
    rcases List.eq_nil_or_concat nm with h | ⟨nm2, x, hx⟩
    · exact absurd h hne
    · rw [List.concat_eq_append] at hx
      have hxw : jsWs x = false := by
        by_contra hxw
        have hxw2 : jsWs x = true := by
          cases hjw : jsWs x
          · exact absurd hjw hxw
          · rfl
        have hws2 := jsTrimEnd_ws nm2 x hxw2
        rw [← hx] at hws2
        rw [hws2] at hE
        have hlen : (jsTrimEnd nm2).length ≤ nm2.length := by
          have h := List.IsSuffix.length_le (List.dropWhile_suffix (l := nm2.reverse) jsWs)
          simpa [jsTrimEnd] using h
        have hlE : (jsTrimEnd nm2).length = nm.length := by rw [hE]
        have hnm : nm.length = nm2.length + 1 := by simp [hx]
        omega
      have h2 : (("@template ").toList ++ nm) = ((("@template ").toList ++ nm2) ++ [x]) := by
        simp [hx]
      rw [h2, jsTrimEnd_eq_self _ x hxw]
  have htd : isTemplateDirective (("@template ").toList ++ nm) = true := rfl
  have hid : isIncludeDirective (("@template ").toList ++ nm) = false := rfl
  have hstripI : stripIncludeDirective (("@template ").toList ++ nm) =
      ("@template ").toList ++ nm := by
    unfold stripIncludeDirective
    rw [hid]
    simp
  have hstripT : stripTemplateDirective (("@template ").toList ++ nm) = nm := by
    unfold stripTemplateDirective
    rw [htd]
    rfl
  have hws : jsWs ('-') = false := by decide
  simp at hclm hct0 hct htd hid hstripI hstripT
  unfold scanStep
  simp [hws, nextIs, hclm, hct0, hct, htd, hid, hstripI, hstripT, hS]
  have e10 : ∀ n : Nat, n + 1 + 1 + 1 + 1 + 1 + 1 + 1 + 1 + 1 + 1 = 10 + n := by intro n; omega
  have e14 : ∀ n : Nat, 2 + (n + 1 + 1 + 1 + 1 + 1 + 1 + 1 + 1 + 1 + 1 + 1 + 1) = 14 + n := by
    intro n; omega
  have e14b : ∀ o n : Nat,
      o + 2 + (n + 1 + 1 + 1 + 1 + 1 + 1 + 1 + 1 + 1 + 1 + 1 + 1) = o + (14 + n) := by
    intro o n; omega
  have e3 : offset + 2 + 1 = offset + 3 := by omega
  simp only [e10, e14, e14b, e3]
  cases hv : validateDatabaseName nm with
  | some e => simp
  | none =>
    simp
    split <;> simp <;> omega

/-- Driver-level template-line step: invalid name halts with its error;
a conflicting earlier template halts with TEMPLATE_DIRECTIVE_ERROR_FIRST;
otherwise the template Statement is pushed and scanning continues. -/
theorem goD_template (fs : FileSys) (recur : String → List Char → List Statement)
    (fuel : Nat) (uri : String) (nm rest : List Char) (offset : Nat)
    (A : List Statement) (cs : Nat)
    (hn : noNewline nm = true)
    (hE : jsTrimEnd nm = nm)
    (hS : jsTrim nm = nm)
    (hne : nm ≠ []) :
    goD fs recur (fuel + 1) uri (templateLine nm ++ rest) offset ⟨A, cs, [], none, false, false⟩ =
      (match validateDatabaseName nm with
        | some e =>
          A ++ [{ location := ⟨uri, offset + 3, 10 + nm.length⟩, error := some e }]
        | none =>
          if templateConflict nm A then
            A ++ [{ location := ⟨uri, offset + 3, 10 + nm.length⟩,
                    error := some TEMPLATE_DIRECTIVE_ERROR_FIRST }]
          else
            goD fs recur fuel uri rest (offset + (14 + nm.length))
              ⟨A ++ [{ location := ⟨uri, offset + 3, 10 + nm.length⟩, template := some nm }],
                cs, [], none, false, false⟩) := by
  have hshape : templateLine nm ++ rest =
      '-' :: ('-' :: ((" @template ").toList ++ (nm ++ '\n' :: rest))) := by
    simp [templateLine]
  have hstep := scanStep_template fs recur uri nm rest offset A cs hn hE hS hne
  have hlen : (templateLine nm).length = 14 + nm.length := by
    simp [templateLine]
    omega
  have hdrop : ('-' :: ('-' :: ((" @template ").toList ++ (nm ++ '\n' :: rest)))).drop
      (14 + nm.length) = rest := by
    rw [← hshape, ← hlen, List.drop_left]
  cases hv : validateDatabaseName nm with
  | some e =>
    rw [hv] at hstep
    dsimp only at hstep
    rw [hshape, goD_cons, hstep]
  | none =>
    rw [hv] at hstep
    dsimp only at hstep
    by_cases hc : templateConflict nm A = true
    · have hc' : (A.length > 0 &&
            ((A.filter (fun s => match s.template with | some t => t ≠ [] | none => false)).length > 0 &&
              (A.filter (fun s => match s.template with | some t => t ≠ [] | none => false)).any
                (fun s => !quotedEqual nm (s.template.getD [])))) = true := hc
      rw [if_pos hc'] at hstep
      rw [hshape, goD_cons, hstep, if_pos hc]
    · have hc' : ¬ ((A.length > 0 &&
            ((A.filter (fun s => match s.template with | some t => t ≠ [] | none => false)).length > 0 &&
              (A.filter (fun s => match s.template with | some t => t ≠ [] | none => false)).any
                (fun s => !quotedEqual nm (s.template.getD [])))) = true) := hc
      rw [if_neg hc'] at hstep
      rw [hshape, goD_cons, hstep, if_neg hc]
      dsimp only
      rw [hdrop]


theorem goD_ws (fs : FileSys) (recur : String → List Char → List Statement)
    (fuel : Nat) (uri : String) (c : Char) (rest : List Char) (offset : Nat)
    (A : List Statement) (cs : Nat) (h : jsWs c = true) :
    goD fs recur (fuel + 1) uri (c :: rest) offset ⟨A, cs, [], none, false, false⟩ =
      goD fs recur fuel uri rest (offset + 1) ⟨A, cs, [], none, false, false⟩ := by
  rw [goD_cons]
  unfold scanStep
  simp [h]

theorem jsTrim_append_nl (t : List Char) :
    jsTrimEnd (jsTrimStart (t ++ ['\n'])) = jsTrim t := by
  unfold jsTrim jsTrimStart
  rw [List.dropWhile_append]
  by_cases hb : (List.dropWhile jsWs t).isEmpty
  · have he : List.dropWhile jsWs t = [] := by simpa using hb
    rw [if_pos hb]
    simp [he, jsTrimEnd, (by decide : jsWs ('\n') = true)]
  · rw [if_neg hb, jsTrimEnd_nl]

theorem goD_lineComment (fs : FileSys) (recur : String → List Char → List Statement)
    (fuel : Nat) (uri : String) (t rest : List Char) (offset : Nat)
    (A : List Statement) (cs : Nat)
    (hn : noNewline t = true)
    (hni : isIncludeDirective (jsTrim t) = false)
    (hnt : isTemplateDirective (jsTrim t) = false) :
    goD fs recur (fuel + 1) uri (('-' :: ('-' :: (t ++ ['\n']))) ++ rest) offset
        ⟨A, cs, [], none, false, false⟩ =
      goD fs recur fuel uri rest (offset + (t.length + 3)) ⟨A, cs, [], none, false, false⟩ := by
  have hclm : commentLineMatch (t ++ '\n' :: rest) = t ++ ['\n'] :=
    commentLineMatch_clean t rest (noNewline_mem t hn)
  have hct : jsTrimEnd (jsTrimStart (t ++ ['\n'])) = jsTrim t := jsTrim_append_nl t
  simp only [List.cons_append, List.append_assoc, List.singleton_append]
  rw [goD_cons]
  unfold scanStep
  simp [nextIs, hclm, hct, hni, hnt, (by decide : jsWs ('-') = false)]
  have hd : List.drop (2 + (t.length + 1)) ('-' :: ('-' :: (t ++ '\n' :: rest))) = rest := by
    have hsh : ('-' :: ('-' :: (t ++ '\n' :: rest))) = (('-' :: ('-' :: (t ++ ['\n']))) ++ rest) := by
      simp
    rw [hsh]
    have hlen : ('-' :: ('-' :: (t ++ ['\n']))).length = 2 + (t.length + 1) := by
      simp
      omega
    rw [← hlen, List.drop_left]
  rw [hd, show offset + 2 + (t.length + 1) = offset + (t.length + 3) from by omega]

theorem goD_blockConsume (fs : FileSys) (recur : String → List Char → List Statement)
    (fuel : Nat) (uri : String) (t rest : List Char) (offset : Nat)
    (A : List Statement) (cs : Nat) (h : hasStarSlash t = false) :
    goD fs recur (fuel + (t.length + 1)) uri (t ++ ('*' :: ('/' :: rest))) offset
        ⟨A, cs, [], none, true, false⟩ =
      goD fs recur fuel uri rest (offset + (t.length + 2)) ⟨A, cs, [], none, false, false⟩ := by
  induction t generalizing fuel offset with
  | nil =>
    simp only [List.length_nil, List.nil_append, Nat.zero_add]
    rw [goD_cons]
    unfold scanStep
    simp [nextIs]
  | cons c t ih =>
    have h2 : (c = '*' && nextIs (t ++ ('*' :: ('/' :: rest))) '/') = false := by
      cases t with
      | nil =>
        simp only [hasStarSlash, nextIs, Bool.or_eq_false_iff] at h ⊢
        simp [nextIs]
      | cons d t2 =>
        simp only [hasStarSlash, nextIs, Bool.or_eq_false_iff] at h
        simpa [nextIs] using h.1
    have hf : fuel + ((c :: t).length + 1) = (fuel + (t.length + 1)) + 1 := by
      simp only [List.length_cons]
      omega
    rw [hf, List.cons_append, goD_cons]
    unfold scanStep
    have h3 : hasStarSlash t = false := by
      simp only [hasStarSlash, Bool.or_eq_false_iff] at h
      exact h.2
    rw [if_pos rfl, if_neg (by simp [h2])]
    dsimp only
    rw [List.drop_one, List.tail_cons, ih _ _ h3]
    rw [show offset + 1 + (t.length + 2) = offset + ((c :: t).length + 2) from by
      simp only [List.length_cons]
      omega]

theorem goD_block (fs : FileSys) (recur : String → List Char → List Statement)
    (fuel : Nat) (uri : String) (t rest : List Char) (offset : Nat)
    (A : List Statement) (cs : Nat) (h : hasStarSlash t = false) :
    goD fs recur (fuel + (t.length + 2)) uri (('/' :: ('*' :: (t ++ ['*', '/']))) ++ rest) offset
        ⟨A, cs, [], none, false, false⟩ =
      goD fs recur fuel uri rest (offset + (t.length + 4)) ⟨A, cs, [], none, false, false⟩ := by
  have hf : fuel + (t.length + 2) = (fuel + (t.length + 1)) + 1 := by omega
  simp only [List.cons_append]
  rw [hf, goD_cons]
  unfold scanStep
  simp [nextIs, (by decide : jsWs ('/') = false)]
  rw [goD_blockConsume fs recur fuel uri t rest (offset + 2) A cs h]
  rw [show offset + 2 + (t.length + 2) = offset + (t.length + 4) from by omega]

theorem goD_start (fs : FileSys) (recur : String → List Char → List Statement)
    (fuel : Nat) (uri : String) (c : Char) (rest : List Char) (offset : Nat)
    (A : List Statement) (cs : Nat)
    (h1 : jsWs c = false)
    (h2 : (c = '-' && nextIs rest '-') = false)
    (h3 : (c = '/' && nextIs rest '*') = false) :
    goD fs recur (fuel + 1) uri (c :: rest) offset ⟨A, cs, [], none, false, false⟩ =
      goD fs recur fuel uri (c :: rest) offset ⟨A, offset, [], none, false, true⟩ := by
  rw [goD_cons]
  unfold scanStep
  simp [h1, h2, h3]

theorem goD_plain (fs : FileSys) (recur : String → List Char → List Statement)
    (fuel : Nat) (uri : String) (c : Char) (rest : List Char) (offset : Nat)
    (A : List Statement) (cs : Nat) (sql : List Char)
    (h : (c = ';' || c = '"' || c = sq || c = bq || c = '$') = false) :
    goD fs recur (fuel + 1) uri (c :: rest) offset ⟨A, cs, sql, none, false, true⟩ =
      goD fs recur fuel uri rest (offset + 1) ⟨A, cs, sql ++ [c], none, false, true⟩ := by
  simp only [Bool.or_eq_false_iff, decide_eq_false_iff_not] at h
  rw [goD_cons]
  unfold scanStep
  simp [h.1.1.1.1, h.1.1.1.2, h.1.1.2, h.1.2, h.2]

theorem goD_quoteOpen (fs : FileSys) (recur : String → List Char → List Statement)
    (fuel : Nat) (uri : String) (q : Char) (rest : List Char) (offset : Nat)
    (A : List Statement) (cs : Nat) (sql : List Char)
    (h : isSimpleQuote q = true) :
    goD fs recur (fuel + 1) uri (q :: rest) offset ⟨A, cs, sql, none, false, true⟩ =
      goD fs recur fuel uri rest (offset + 1) ⟨A, cs, sql ++ [q], some q, false, true⟩ := by
  have hq : ¬ (q = '$') := by
    simp only [isSimpleQuote, Bool.or_eq_true, decide_eq_true_eq] at h
    rcases h with (h | h) | h <;> rw [h] <;> decide
  have hq2 : (q = '"' || q = sq || q = bq) = true := by
    simp only [isSimpleQuote, Bool.or_eq_true, decide_eq_true_eq] at h
    simp only [Bool.or_eq_true, decide_eq_true_eq]
    tauto
  rw [goD_cons]
  unfold scanStep
  simp [hq, hq2]

theorem goD_quoteInner (fs : FileSys) (recur : String → List Char → List Statement)
    (fuel : Nat) (uri : String) (q : Char) (inner rest : List Char) (offset : Nat)
    (A : List Statement) (cs : Nat) (sql : List Char)
    (h : inner.contains q = false) :
    goD fs recur (fuel + (inner.length + 1)) uri (inner ++ (q :: rest)) offset
        ⟨A, cs, sql, some q, false, true⟩ =
      goD fs recur fuel uri rest (offset + (inner.length + 1))
        ⟨A, cs, sql ++ (inner ++ [q]), none, false, true⟩ := by
  induction inner generalizing fuel offset sql with
  | nil =>
    simp only [List.length_nil, List.nil_append, Nat.zero_add]
    rw [goD_cons]
    unfold scanStep
    simp
  | cons c inner ih =>
    have hc : ¬ (c = q) := by
      simp only [List.contains_cons, Bool.or_eq_false_iff] at h
      have := h.1
      simp only [beq_eq_false_iff_ne, ne_eq] at this
      exact fun hh => this hh.symm
    have hf : fuel + ((c :: inner).length + 1) = (fuel + (inner.length + 1)) + 1 := by
      simp only [List.length_cons]
      omega
    rw [hf, List.cons_append, goD_cons]
    unfold scanStep
    simp only []
    have h2 : inner.contains q = false := by
      simp only [List.contains_cons, Bool.or_eq_false_iff] at h
      exact h.2
    simp [hc, ih _ _ _ h2]
    rw [show offset + 1 + (inner.length + 1) = offset + (inner.length + 1 + 1) from by omega]

theorem jsTrim_snoc_ne (sql : List Char) (x : Char) (hx : jsWs x = false) :
    jsTrim (sql ++ [x]) ≠ [] := by
  unfold jsTrim jsTrimStart
  rw [List.dropWhile_append]
  by_cases hb : (List.dropWhile jsWs sql).isEmpty
  · rw [if_pos hb]
    simp [List.dropWhile_cons, hx, jsTrimEnd]
  · rw [if_neg hb, jsTrimEnd_eq_self _ _ hx]
    simp

theorem goD_semi (fs : FileSys) (recur : String → List Char → List Statement)
    (fuel : Nat) (uri : String) (rest : List Char) (offset : Nat)
    (A : List Statement) (cs : Nat) (sql : List Char) :
    goD fs recur (fuel + 1) uri (';' :: rest) offset ⟨A, cs, sql, none, false, true⟩ =
      goD fs recur fuel uri rest (offset + 1)
        ⟨A ++ [{ location := ⟨uri, cs, offset - cs⟩, sql := some (sql ++ [';']) }],
          offset + 1, [], none, false, false⟩ := by
  have hne := jsTrim_snoc_ne sql ';' (by decide)
  rw [goD_cons]
  unfold scanStep
  simp [hne, (by decide : (';' = sq) = false), (by decide : (';' = bq) = false)]

theorem takeWhile_append_cons (p : Char → Bool) (a : List Char) (x : Char) (s : List Char)
    (ha : a.all p = true) (hx : p x = false) :
    (a ++ x :: s).takeWhile p = a := by
  induction a with
  | nil => simp [List.takeWhile_cons, hx]
  | cons c t ih =>
    simp only [List.all_cons, Bool.and_eq_true] at ha
    simp [List.takeWhile_cons, ha.1, ih ha.2]

theorem dropWhile_append_cons (p : Char → Bool) (a : List Char) (x : Char) (s : List Char)
    (ha : a.all p = true) (hx : p x = false) :
    (a ++ x :: s).dropWhile p = x :: s := by
  induction a with
  | nil => simp [List.dropWhile_cons, hx]
  | cons c t ih =>
    simp only [List.all_cons, Bool.and_eq_true] at ha
    simp [List.dropWhile_cons, ha.1, ih ha.2]

theorem dollarMatch_render (tag : List Char) (s : List Char) (hwf : dollarTagWf tag = true) :
    dollarMatch (('$' :: (tag ++ ['$'])) ++ s) = some ('$' :: (tag ++ ['$'])) := by
  cases tag with
  | nil => simp [dollarMatch]
  | cons c cs =>
    simp only [dollarTagWf, Bool.and_eq_true] at hwf
    have hcne : ¬ (c = '$') := by
      intro hh
      rw [hh] at hwf
      exact absurd hwf.1 (by decide)
    have hdrop : (cs ++ '$' :: s).dropWhile isDollarTagCont = '$' :: s :=
      dropWhile_append_cons _ _ _ _ hwf.2 (by decide)
    have htake : (cs ++ '$' :: s).takeWhile isDollarTagCont = cs :=
      takeWhile_append_cons _ _ _ _ hwf.2 (by decide)
    simp [dollarMatch, hcne, hwf.1, hdrop, htake]

theorem isPrefixOf_append_of_le (pat x r : List Char) (h : pat.length ≤ x.length) :
    pat.isPrefixOf (x ++ r) = pat.isPrefixOf x := by
  induction pat generalizing x with
  | nil => simp [List.isPrefixOf]
  | cons p ps ih =>
    cases x with
    | nil => simp at h
    | cons y ys =>
      simp only [List.length_cons, Nat.add_le_add_iff_right] at h
      simp [List.isPrefixOf, ih ys h]

theorem idxOf?_extend (pat s r : List Char) (k : Nat) (hp : pat ≠ [])
    (h : idxOf? pat s = some k) (hk : k + pat.length ≤ s.length) :
    idxOf? pat (s ++ r) = some k := by
  induction s generalizing k with
  | nil =>
    simp [idxOf?, hp] at h
  | cons c t ih =>
    simp only [List.length_cons] at hk
    have hlen : pat.length ≤ (c :: t).length := by
      simp only [List.length_cons]
      omega
    have hext : pat.isPrefixOf ((c :: t) ++ r) = pat.isPrefixOf (c :: t) :=
      isPrefixOf_append_of_le pat (c :: t) r hlen
    by_cases hpre : pat.isPrefixOf (c :: t) = true
    · simp [idxOf?, hpre] at h
      have hP : pat <+: (c :: t) ++ r :=
        (List.isPrefixOf_iff_prefix.mp hpre).trans (List.prefix_append _ _)
      simp only [List.cons_append] at hP
      simp [List.cons_append, idxOf?, hP, h]
    · have hpre2 : pat.isPrefixOf (c :: t) = false := Bool.eq_false_iff.mpr hpre
      simp [idxOf?, hpre2] at h
      obtain ⟨a, ha, hak⟩ := h
      have hk2 : a + pat.length ≤ t.length := by omega
      have hnP : ¬ pat <+: c :: (t ++ r) := by
        intro hcontra
        have hb := List.isPrefixOf_iff_prefix.mpr hcontra
        rw [← List.cons_append] at hb
        rw [hext, hpre2] at hb
        exact Bool.false_ne_true hb
      simp [List.cons_append, idxOf?, hnP, ih a ha hk2, hak]

set_option maxHeartbeats 1600000 in
theorem goD_dollar (fs : FileSys) (recur : String → List Char → List Statement)
    (fuel : Nat) (uri : String) (tag inner rest : List Char) (offset : Nat)
    (A : List Statement) (cs : Nat) (sql : List Char)
    (h1 : dollarTagWf tag = true)
    (h2 : idxOf? ('$' :: (tag ++ ['$'])) (inner ++ ('$' :: (tag ++ ['$']))) =
      some inner.length) :
    goD fs recur (fuel + 1) uri ((Tok.dollar tag inner).render ++ rest) offset
        ⟨A, cs, sql, none, false, true⟩ =
      goD fs recur fuel uri rest (offset + (Tok.dollar tag inner).render.length)
        ⟨A, cs, sql ++ (Tok.dollar tag inner).render, none, false, true⟩ := by
  have hm := dollarMatch_render tag (inner ++ (('$' :: (tag ++ ['$'])) ++ rest)) h1
  have hidx : idxOf? ('$' :: (tag ++ ['$']))
      ((inner ++ ('$' :: (tag ++ ['$']))) ++ rest) = some inner.length := by
    apply idxOf?_extend _ _ _ _ (by simp) h2
    simp
  have hdrop : (('$' :: (tag ++ ['$'])) ++ ((inner ++ ('$' :: (tag ++ ['$']))) ++ rest)).drop
      (('$' :: (tag ++ ['$'])).length) = (inner ++ ('$' :: (tag ++ ['$']))) ++ rest :=
    List.drop_left _ _
  have htake : ((('$' :: (tag ++ ['$'])) ++ (inner ++ ('$' :: (tag ++ ['$'])))) ++ rest).take
      (inner.length + ('$' :: (tag ++ ['$'])).length * 2) =
      ('$' :: (tag ++ ['$'])) ++ (inner ++ ('$' :: (tag ++ ['$']))) := by
    apply List.take_left'
    simp
    omega
  have hdrop2 : ((('$' :: (tag ++ ['$'])) ++ (inner ++ ('$' :: (tag ++ ['$'])))) ++ rest).drop
      ((('$' :: (tag ++ ['$'])) ++ (inner ++ ('$' :: (tag ++ ['$'])))).length) = rest :=
    List.drop_left _ _
  simp only [Tok.render, List.append_assoc, List.cons_append, List.nil_append]
  rw [goD_cons]
  unfold scanStep
  simp at hm hidx hdrop htake hdrop2
  simp [hm, hidx, hdrop, htake, hdrop2]

/-- One well-formed body token is consumed atomically by the statement
scanner: appended to `currentSql`, offset advanced by its length. -/
theorem goD_tok (fs : FileSys) (recur : String → List Char → List Statement)
    (fuel : Nat) (uri : String) (t : Tok) (rest : List Char) (offset : Nat)
    (A : List Statement) (cs : Nat) (sql : List Char)
    (h : t.wf = true) :
    goD fs recur (fuel + t.fuel) uri (t.render ++ rest) offset ⟨A, cs, sql, none, false, true⟩ =
      goD fs recur fuel uri rest (offset + t.render.length)
        ⟨A, cs, sql ++ t.render, none, false, true⟩ := by
  cases t with
  | plain c =>
    simp only [Tok.wf, Bool.not_eq_true'] at h
    simpa [Tok.fuel, Tok.render] using goD_plain fs recur fuel uri c rest offset A cs sql h
  | quoted q inner =>
    simp only [Tok.wf, Bool.and_eq_true, Bool.not_eq_true'] at h
    simp only [Tok.fuel, Tok.render]
    rw [show fuel + (inner.length + 2) = (fuel + (inner.length + 1)) + 1 from by omega]
    rw [List.cons_append, goD_quoteOpen _ _ _ _ _ _ _ _ _ _ h.1]
    rw [show (inner ++ [q]) ++ rest = inner ++ (q :: rest) from by simp]
    rw [goD_quoteInner _ _ _ _ _ _ _ _ _ _ _ h.2]
    rw [show offset + 1 + (inner.length + 1) = offset + (q :: (inner ++ [q])).length from by
      simp
      omega]
    simp [List.append_assoc]
  | dollar tag inner =>
    simp only [Tok.wf, Bool.and_eq_true, decide_eq_true_eq] at h
    simpa [Tok.fuel] using goD_dollar fs recur fuel uri tag inner rest offset A cs sql h.1 h.2

/-- A list of well-formed body tokens is consumed token by token. -/
theorem goD_body (fs : FileSys) (recur : String → List Char → List Statement)
    (fuel : Nat) (uri : String) (body : List Tok) (rest : List Char) (offset : Nat)
    (A : List Statement) (cs : Nat) (sql : List Char)
    (h : body.all Tok.wf = true) :
    goD fs recur (fuel + (body.map Tok.fuel).sum) uri
        ((body.map Tok.render).flatten ++ rest) offset ⟨A, cs, sql, none, false, true⟩ =
      goD fs recur fuel uri rest (offset + ((body.map Tok.render).flatten).length)
        ⟨A, cs, sql ++ (body.map Tok.render).flatten, none, false, true⟩ := by
  induction body generalizing fuel offset sql rest with
  | nil => simp
  | cons t ts ih =>
    simp only [List.all_cons, Bool.and_eq_true] at h
    simp only [List.map_cons, List.flatten_cons, List.sum_cons, List.append_assoc]
    rw [show fuel + (t.fuel + (ts.map Tok.fuel).sum) =
      (fuel + (ts.map Tok.fuel).sum) + t.fuel from by omega]
    rw [goD_tok _ _ _ _ _ _ _ _ _ _ h.1]
    rw [ih _ _ _ _ h.2]
    rw [show offset + t.render.length + ((ts.map Tok.render).flatten).length =
      offset + (t.render.length + ((ts.map Tok.render).flatten).length) from by omega]
    simp [List.append_assoc]

/-- One well-formed trivia item is consumed by the between-statements
state without changing the accumulated statements or `currentStart`. -/
theorem goD_lead (fs : FileSys) (recur : String → List Char → List Statement)
    (fuel : Nat) (uri : String) (l : Lead) (rest : List Char) (offset : Nat)
    (A : List Statement) (cs : Nat)
    (h : l.wf = true) :
    goD fs recur (fuel + l.fuel) uri (l.render ++ rest) offset ⟨A, cs, [], none, false, false⟩ =
      goD fs recur fuel uri rest (offset + l.render.length)
        ⟨A, cs, [], none, false, false⟩ := by
  cases l with
  | ws c =>
    simp only [Lead.wf] at h
    simpa [Lead.fuel, Lead.render] using goD_ws fs recur fuel uri c rest offset A cs h
  | line t =>
    simp only [Lead.wf, Bool.and_eq_true, Bool.not_eq_true'] at h
    have he := goD_lineComment fs recur fuel uri t rest offset A cs h.1.1 h.1.2 h.2
    simp only [Lead.fuel, Lead.render]
    rw [he]
    have hl : ('-' :: ('-' :: (t ++ ['\n']))).length = t.length + 3 := by simp
    rw [hl]
  | block t =>
    simp only [Lead.wf, Bool.not_eq_true'] at h
    have he := goD_block fs recur fuel uri t rest offset A cs h
    simp only [Lead.fuel, Lead.render]
    rw [he]
    have hl : ('/' :: ('*' :: (t ++ ['*', '/']))).length = t.length + 4 := by simp
    rw [hl]

/-- A list of well-formed trivia items is consumed item by item. -/
theorem goD_leads (fs : FileSys) (recur : String → List Char → List Statement)
    (fuel : Nat) (uri : String) (l : List Lead) (rest : List Char) (offset : Nat)
    (A : List Statement) (cs : Nat)
    (h : l.all Lead.wf = true) :
    goD fs recur (fuel + leadsFuel l) uri (leadsText l ++ rest) offset
        ⟨A, cs, [], none, false, false⟩ =
      goD fs recur fuel uri rest (offset + (leadsText l).length)
        ⟨A, cs, [], none, false, false⟩ := by
  induction l generalizing fuel offset rest with
  | nil => simp [leadsText, leadsFuel]
  | cons x xs ih =>
    simp only [List.all_cons, Bool.and_eq_true] at h
    have e1 : leadsText (x :: xs) = x.render ++ leadsText xs := by simp [leadsText]
    have e2 : leadsFuel (x :: xs) = x.fuel + leadsFuel xs := by simp [leadsFuel]
    rw [e1, e2, List.append_assoc]
    rw [show fuel + (x.fuel + leadsFuel xs) = (fuel + leadsFuel xs) + x.fuel from by omega]
    rw [goD_lead _ _ _ _ _ _ _ _ _ h.1]
    rw [ih fuel rest (offset + x.render.length) h.2]
    rw [List.length_append, ← Nat.add_assoc]

theorem nextIs_append_semi (X r : List Char) (d : Char) (hd : d ≠ ';') :
    nextIs (X ++ (';' :: r)) d = nextIs X d := by
  cases X with
  | nil =>
    simp only [List.nil_append, nextIs]
    simp only [decide_eq_false_iff_not]
    exact fun h => hd h.symm
  | cons x xs => simp [nextIs]

/-- From the between-statements state, a well-formed statement body
followed by `;` starts a statement at the current offset, consumes the
body, and pushes the statement on the `;`. -/
theorem goD_startBody (fs : FileSys) (recur : String → List Char → List Statement)
    (fuel : Nat) (uri : String) (body : List Tok) (rest : List Char) (offset : Nat)
    (A : List Statement) (cs : Nat)
    (hw : body.all Tok.wf = true)
    (hs : bodyStartOk ((body.map Tok.render).flatten) = true) :
    goD fs recur (fuel + ((body.map Tok.fuel).sum + 2)) uri
        ((body.map Tok.render).flatten ++ (';' :: rest)) offset ⟨A, cs, [], none, false, false⟩ =
      goD fs recur fuel uri rest (offset + ((body.map Tok.render).flatten.length + 1))
        ⟨A ++ [{ location := ⟨uri, offset, (body.map Tok.render).flatten.length⟩,
                 sql := some ((body.map Tok.render).flatten ++ [';']) }],
          offset + ((body.map Tok.render).flatten.length + 1), [], none, false, false⟩ := by
  cases body with
  | nil =>
    simp only [List.map_nil, List.flatten_nil, List.sum_nil, List.nil_append, Nat.zero_add,
      List.length_nil]
    rw [show fuel + (0 + 2) = (fuel + 1) + 1 from by omega]
    rw [goD_start _ _ _ _ _ _ _ _ _ (by decide) (by simp [nextIs]) (by simp [nextIs])]
    rw [goD_semi]
    simp
  | cons t ts =>
    obtain ⟨c0, tr, hct⟩ : ∃ c0 tr, t.render = c0 :: tr := by
      cases t with
      | plain c => exact ⟨c, [], rfl⟩
      | quoted q inner => exact ⟨q, inner ++ [q], rfl⟩
      | dollar tag inner =>
        exact ⟨'$', (tag ++ ['$']) ++ inner ++ ('$' :: (tag ++ ['$'])), by simp [Tok.render]⟩
    have hb : ((t :: ts).map Tok.render).flatten = c0 :: (tr ++ (ts.map Tok.render).flatten) := by
      simp [hct]
    rw [hb] at hs
    simp only [bodyStartOk, Bool.and_eq_true, Bool.not_eq_true'] at hs
    have h2 : (c0 = '-' &&
        nextIs ((tr ++ (ts.map Tok.render).flatten) ++ (';' :: rest)) '-') = false := by
      rw [nextIs_append_semi _ _ _ (by decide)]
      exact hs.1.2
    have h3 : (c0 = '/' &&
        nextIs ((tr ++ (ts.map Tok.render).flatten) ++ (';' :: rest)) '*') = false := by
      rw [nextIs_append_semi _ _ _ (by decide)]
      exact hs.2
    rw [show fuel + (((t :: ts).map Tok.fuel).sum + 2) =
      ((fuel + 1) + ((t :: ts).map Tok.fuel).sum) + 1 from by omega]
    rw [hb]
    rw [show (c0 :: (tr ++ (ts.map Tok.render).flatten)) ++ (';' :: rest) =
      c0 :: ((tr ++ (ts.map Tok.render).flatten) ++ (';' :: rest)) from by simp]
    rw [goD_start _ _ _ _ _ _ _ _ _ hs.1.1 h2 h3]
    rw [show c0 :: ((tr ++ (ts.map Tok.render).flatten) ++ (';' :: rest)) =
      ((t :: ts).map Tok.render).flatten ++ (';' :: rest) from by simp [hct]]
    rw [goD_body _ _ _ _ _ _ _ _ _ _ hw]
    rw [goD_semi]
    simp [hct, Nat.add_assoc, Nat.add_comm, Nat.add_left_comm]

/-- One well-formed segment is consumed whole: its statement is pushed
and `currentStart` ends just past its `;`. -/
theorem goD_seg (fs : FileSys) (recur : String → List Char → List Statement)
    (fuel : Nat) (uri : String) (s : Seg) (rest : List Char) (offset : Nat)
    (A : List Statement) (cs : Nat) (h : s.wf = true) :
    goD fs recur (fuel + s.fuel) uri (s.render ++ rest) offset ⟨A, cs, [], none, false, false⟩ =
      goD fs recur fuel uri rest (offset + s.render.length)
        ⟨A ++ [s.stmt uri offset], offset + s.render.length, [], none, false, false⟩ := by
  simp only [Seg.wf, Bool.and_eq_true] at h
  simp only [Seg.render, Seg.fuel, Seg.leadText, Seg.bodyText, List.append_assoc,
    List.singleton_append]
  have elf : (s.lead.map Lead.fuel).sum = leadsFuel s.lead := rfl
  have elt : (s.lead.map Lead.render).flatten = leadsText s.lead := rfl
  rw [elf, elt]
  rw [show fuel + (leadsFuel s.lead + ((s.body.map Tok.fuel).sum + 2)) =
    (fuel + ((s.body.map Tok.fuel).sum + 2)) + leadsFuel s.lead from by omega]
  rw [goD_leads _ _ _ _ _ _ _ _ _ h.1.1]
  rw [goD_startBody _ _ _ _ _ _ _ _ _ h.1.2 h.2]
  simp [Seg.stmt, Seg.leadText, Seg.bodyText, Seg.render, leadsText, Nat.add_assoc]

theorem segsEndStart_self (o : Nat) (l : List Seg) :
    segsEndStart o o l = o + (segsText l).length := by
  cases l with
  | nil => simp [segsEndStart, segsText]
  | cons x xs => simp [segsEndStart, segsText]

/-- A list of well-formed segments is consumed segment by segment,
pushing exactly the predicted statements. -/
theorem goD_segs (fs : FileSys) (recur : String → List Char → List Statement)
    (fuel : Nat) (uri : String) (l : List Seg) (rest : List Char) (offset : Nat)
    (A : List Statement) (cs : Nat)
    (h : l.all Seg.wf = true) :
    goD fs recur (fuel + segsFuel l) uri (segsText l ++ rest) offset
        ⟨A, cs, [], none, false, false⟩ =
      goD fs recur fuel uri rest (offset + (segsText l).length)
        ⟨A ++ predictedStmts uri offset l, segsEndStart cs offset l, [], none, false, false⟩ := by
  induction l generalizing fuel offset rest A cs with
  | nil => simp [segsText, segsFuel, predictedStmts, segsEndStart]
  | cons x xs ih =>
    simp only [List.all_cons, Bool.and_eq_true] at h
    have e1 : segsText (x :: xs) = x.render ++ segsText xs := by simp [segsText]
    have e3 : segsEndStart cs offset (x :: xs) = offset + (x.render.length + (segsText xs).length) := by
      simp [segsEndStart, segsText, Nat.add_assoc]
    rw [e1, List.append_assoc]
    rw [show segsFuel (x :: xs) = x.fuel + segsFuel xs from by simp [segsFuel]]
    rw [show fuel + (x.fuel + segsFuel xs) = (fuel + segsFuel xs) + x.fuel from by omega]
    rw [goD_seg _ _ _ _ _ _ _ _ _ h.1]
    rw [ih _ _ _ _ _ h.2]
    rw [e3]
    simp [predictedStmts, segsEndStart_self, Nat.add_assoc]

theorem tok_fuel_le (t : Tok) : t.fuel ≤ t.render.length := by
  cases t <;> simp [Tok.fuel, Tok.render] <;> omega

theorem toks_fuel_le (body : List Tok) :
    (body.map Tok.fuel).sum ≤ ((body.map Tok.render).flatten).length := by
  induction body with
  | nil => simp
  | cons t ts ih =>
    have h := tok_fuel_le t
    simp only [List.map_cons, List.sum_cons, List.flatten_cons, List.length_append]
    omega

theorem lead_fuel_le (l : Lead) : l.fuel ≤ l.render.length := by
  cases l <;> simp [Lead.fuel, Lead.render] <;> omega

theorem leads_fuel_le (l : List Lead) : leadsFuel l ≤ (leadsText l).length := by
  induction l with
  | nil => simp [leadsFuel, leadsText]
  | cons x xs ih =>
    have h := lead_fuel_le x
    simp only [leadsFuel, leadsText, List.map_cons, List.sum_cons, List.flatten_cons,
      List.length_append] at *
    omega

theorem seg_fuel_le (s : Seg) : s.fuel ≤ 2 * s.render.length := by
  have h1 := leads_fuel_le s.lead
  have h2 := toks_fuel_le s.body
  simp only [Seg.fuel, Seg.render, Seg.leadText, Seg.bodyText, leadsFuel, leadsText,
    List.length_append, List.length_cons, List.length_nil] at *
  omega

theorem segs_fuel_le (l : List Seg) : segsFuel l ≤ 2 * (segsText l).length := by
  induction l with
  | nil => simp [segsFuel, segsText]
  | cons x xs ih =>
    have h := seg_fuel_le x
    simp only [segsFuel, segsText, List.map_cons, List.sum_cons, List.flatten_cons,
      List.length_append] at *
    omega

/-- Main segmentation theorem: a unit text made of well-formed
`;`-terminated segments followed by trailing trivia splits into exactly
the predicted statements, one per segment, in order. -/
theorem split_segs (fs : FileSys) (d : Nat) (uri : String)
    (segs : List Seg) (trail : List Lead)
    (hs : segs.all Seg.wf = true) (ht : trail.all Lead.wf = true) :
    splitIntoStatements fs (d + 1) uri (segsText segs ++ leadsText trail) =
      predictedStmts uri 0 segs := by
  have hb1 := segs_fuel_le segs
  have hb2 := leads_fuel_le trail
  unfold splitIntoStatements splitD
  have hF : 2 * (segsText segs ++ leadsText trail).length + 2 =
      (((2 * (segsText segs ++ leadsText trail).length + 2 - segsFuel segs - leadsFuel trail)
        + leadsFuel trail) + segsFuel segs) := by
    simp only [List.length_append]
    omega
  rw [hF]
  rw [show initState = (⟨[], 0, [], none, false, false⟩ : ScanState) from rfl]
  rw [show segsText segs ++ leadsText trail = segsText segs ++ (leadsText trail ++ []) from by
    simp]
  rw [goD_segs _ _ _ _ _ _ _ _ _ hs]
  rw [goD_leads _ _ _ _ _ _ _ _ _ ht]
  rw [goD_nil]
  simp [jsTrim, jsTrimStart, jsTrimEnd]

theorem nextIs_append_cons (X r : List Char) (y d : Char) (hd : d ≠ y) :
    nextIs (X ++ (y :: r)) d = nextIs X d := by
  cases X with
  | nil =>
    simp only [List.nil_append, nextIs]
    simp only [decide_eq_false_iff_not]
    exact fun h => hd h.symm
  | cons x xs => simp [nextIs]

theorem mem_dropWhile_of_mem {p : Char → Bool} {l : List Char} {x : Char}
    (hx : x ∈ l) (hp : p x = false) : x ∈ l.dropWhile p := by
  induction l with
  | nil => cases hx
  | cons c t ih =>
    rw [List.dropWhile_cons]
    by_cases hc : p c = true
    · rw [if_pos hc]
      rcases List.mem_cons.mp hx with rfl | hm
      · rw [hc] at hp
        cases hp
      · exact ih hm
    · rw [if_neg hc]
      exact hx

theorem jsTrim_ne_of_mem (l : List Char) (x : Char) (hx : x ∈ l) (hw : jsWs x = false) :
    jsTrim l ≠ [] := by
  intro hnil
  unfold jsTrim jsTrimEnd jsTrimStart at hnil
  have h1 : x ∈ l.dropWhile jsWs := mem_dropWhile_of_mem hx hw
  have h2 : x ∈ (l.dropWhile jsWs).reverse := List.mem_reverse.mpr h1
  have h3 : x ∈ ((l.dropWhile jsWs).reverse).dropWhile jsWs := mem_dropWhile_of_mem h2 hw
  rw [List.reverse_eq_nil_iff] at hnil
  rw [hnil] at h3
  cases h3

/-- An unterminated quote consumes every remaining character verbatim. -/
theorem goD_quoteRun (fs : FileSys) (recur : String → List Char → List Statement)
    (fuel : Nat) (uri : String) (q : Char) (tail : List Char) (offset : Nat)
    (A : List Statement) (cs : Nat) (sql : List Char)
    (h : tail.contains q = false) :
    goD fs recur (fuel + tail.length) uri tail offset ⟨A, cs, sql, some q, false, true⟩ =
      goD fs recur fuel uri [] (offset + tail.length)
        ⟨A, cs, sql ++ tail, some q, false, true⟩ := by
  induction tail generalizing fuel offset sql with
  | nil => simp
  | cons c t ih =>
    have hc : ¬ (c = q) := by
      simp only [List.contains_cons, Bool.or_eq_false_iff] at h
      have hb := h.1
      simp only [beq_eq_false_iff_ne, ne_eq] at hb
      exact fun hh => hb hh.symm
    have h2 : t.contains q = false := by
      simp only [List.contains_cons, Bool.or_eq_false_iff] at h
      exact h.2
    have hf : fuel + (c :: t).length = (fuel + t.length) + 1 := by
      simp only [List.length_cons]
      omega
    rw [hf, goD_cons]
    unfold scanStep
    simp [hc, ih _ _ _ h2]
    rw [show offset + 1 + t.length = offset + (t.length + 1) from by omega]

theorem drop_append_len (a b : List Char) (k : Nat) :
    (a ++ b).drop (a.length + k) = b.drop k := by
  induction a with
  | nil => simp
  | cons c t ih =>
    simp only [List.cons_append, List.length_cons]
    rw [show t.length + 1 + k = (t.length + k) + 1 from by omega]
    rw [List.drop_succ_cons]
    exact ih

theorem predictedStmts_length (uri : String) (o : Nat) (l : List Seg) :
    (predictedStmts uri o l).length = l.length := by
  induction l generalizing o with
  | nil => rfl
  | cons s ss ih => simp [predictedStmts, ih]

/-- Each predicted statement records its segment body: location length and
sql match the body, and the span it designates inside the input text is
exactly the body text (semicolon excluded). -/
theorem predicted_mem (uri : String) (o : Nat) (segs : List Seg) :
    ∀ p ∈ (predictedStmts uri o segs).zip segs,
      ∃ k, p.1.location.uri = uri ∧ p.1.location.startOffset = o + k ∧
        p.1.location.length = p.2.bodyText.length ∧
        p.1.sql = some (p.2.bodyText ++ [';']) ∧
        ∀ tail : List Char,
          ((segsText segs ++ tail).drop k).take p.1.location.length = p.2.bodyText := by
  induction segs generalizing o with
  | nil =>
    intro p hp
    simp [predictedStmts] at hp
  | cons s ss ih =>
    intro p hp
    simp only [predictedStmts, List.zip_cons_cons, List.mem_cons] at hp
    rcases hp with rfl | hp
    · refine ⟨s.leadText.length, rfl, rfl, rfl, rfl, ?_⟩
      intro tail
      have e : segsText (s :: ss) ++ tail =
          s.leadText ++ (s.bodyText ++ ([';'] ++ (segsText ss ++ tail))) := by
        simp [segsText, Seg.render]
      rw [e]
      have hd : (s.leadText ++ (s.bodyText ++ ([';'] ++ (segsText ss ++ tail)))).drop
          s.leadText.length = s.bodyText ++ ([';'] ++ (segsText ss ++ tail)) :=
        List.drop_left _ _
      rw [hd]
      exact List.take_left _ _
    · obtain ⟨k, h1, h2, h3, h4, h5⟩ := ih (o + s.render.length) p hp
      refine ⟨s.render.length + k, h1, by omega, h3, h4, ?_⟩
      intro tail
      have e : segsText (s :: ss) ++ tail = s.render ++ (segsText ss ++ tail) := by
        simp [segsText]
      rw [e, drop_append_len]
      exact h5 tail

theorem predicted_filter_template (uri : String) (o : Nat) (l : List Seg) :
    (predictedStmts uri o l).filter hasTemplateStmt = [] := by
  induction l generalizing o with
  | nil => rfl
  | cons s ss ih =>
    simp only [predictedStmts, List.filter_cons]
    rw [if_neg (by simp [hasTemplateStmt, Seg.stmt])]
    exact ih _

theorem templateConflict_predicted (nm : List Char) (uri : String) (o : Nat) (l : List Seg) :
    templateConflict nm (predictedStmts uri o l) = false := by
  simp [templateConflict, predicted_filter_template]

/-- C1 counterexample: for `SELECT 1;` the single emitted statement has
Location span (0, 8), which designates `SELECT 1` and so EXCLUDES the
closing semicolon, contradicting the claim that the span of a
`;`-terminated statement includes its semicolon; and `;;` produces two
statements although both segments are empty, so empty segments are not
discarded. -/
theorem C1_counterexample :
    (splitIntoStatements fsEmpty 1 "u" (("SELECT 1;").toList)).map
        (fun s => (s.location.startOffset, s.location.length)) = [(0, 8)] ∧
    ((("SELECT 1;").toList).drop 0).take 8 = ("SELECT 1").toList ∧
    (splitIntoStatements fsEmpty 1 "u" ((";;").toList)).length = 2 := by
  decide

/-- C1 (amended): for a directive-free text made of well-formed
`;`-terminated segments plus trailing trivia, the splitter returns one
Statement per segment (empty-bodied segments included), and each
statement's Location designates exactly the segment's body — the segment
text after its leading trivia and BEFORE its closing semicolon — while its
sql text is the body plus the semicolon. -/
theorem C1_amended_statement_spans (fs : FileSys) (d : Nat) (uri : String)
    (segs : List Seg) (trail : List Lead)
    (hs : segs.all Seg.wf = true) (ht : trail.all Lead.wf = true) :
    (splitIntoStatements fs (d + 1) uri (segsText segs ++ leadsText trail)).length =
      segs.length ∧
    ∀ p ∈ (splitIntoStatements fs (d + 1) uri (segsText segs ++ leadsText trail)).zip segs,
      p.1.location.length = p.2.bodyText.length ∧
      p.1.sql = some (p.2.bodyText ++ [';']) ∧
      ((segsText segs ++ leadsText trail).drop p.1.location.startOffset).take
        p.1.location.length = p.2.bodyText := by
  rw [split_segs fs d uri segs trail hs ht]
  constructor
  · exact predictedStmts_length uri 0 segs
  · intro p hp
    obtain ⟨k, h1, h2, h3, h4, h5⟩ := predicted_mem uri 0 segs p hp
    have hk : p.1.location.startOffset = k := by omega
    rw [hk]
    exact ⟨h3, h4, h5 (leadsText trail)⟩

/-- C1 witness: the amended theorem at the concrete two-segment text
`SELECT 1; SELECT 2;`. -/
theorem C1_witness :
    (c1segs.all Seg.wf = true ∧
      segsText c1segs ++ leadsText [] = ("SELECT 1; SELECT 2;").toList) ∧
    ((splitIntoStatements fsEmpty 1 "u" (segsText c1segs ++ leadsText [])).length =
      c1segs.length ∧
    ∀ p ∈ (splitIntoStatements fsEmpty 1 "u" (segsText c1segs ++ leadsText [])).zip c1segs,
      p.1.location.length = p.2.bodyText.length ∧
      p.1.sql = some (p.2.bodyText ++ [';']) ∧
      ((segsText c1segs ++ leadsText []).drop p.1.location.startOffset).take
        p.1.location.length = p.2.bodyText) :=
  ⟨⟨by decide, by decide⟩,
    C1_amended_statement_spans fsEmpty 0 "u" c1segs [] (by decide) (by decide)⟩

theorem predicted_map_sql (uri : String) (o : Nat) (l : List Seg) :
    (predictedStmts uri o l).map Statement.sql =
      l.map (fun s => some (s.bodyText ++ [';'])) := by
  induction l generalizing o with
  | nil => rfl
  | cons s ss ih => simp [predictedStmts, Seg.stmt, ih]

/-- C2: a semicolon inside a single-, double-, backtick- or dollar-quoted
span never ends a statement: for any well-formed segment list — whose
quoted and dollar token inner texts may contain `;` freely — the splitter
returns exactly one statement per segment, and each statement's sql is its
whole segment body (inner semicolons included) plus the terminating
semicolon. -/
theorem C2_quoted_semicolon_no_split (fs : FileSys) (d : Nat) (uri : String)
    (segs : List Seg) (trail : List Lead)
    (hs : segs.all Seg.wf = true) (ht : trail.all Lead.wf = true) :
    (splitIntoStatements fs (d + 1) uri (segsText segs ++ leadsText trail)).length =
      segs.length ∧
    (splitIntoStatements fs (d + 1) uri (segsText segs ++ leadsText trail)).map
      Statement.sql = segs.map (fun s => some (s.bodyText ++ [';'])) := by
  rw [split_segs fs d uri segs trail hs ht]
  exact ⟨predictedStmts_length uri 0 segs, predicted_map_sql uri 0 segs⟩

/-- C2 witness: the claim example `SELECT <q>;<q>; SELECT 2;` (with `<q>`
the single quote) yields exactly two statements, the first being
`SELECT <q>;<q>;`. -/
theorem C2_witness :
    (c2segs.all Seg.wf = true ∧
      segsText c2segs ++ leadsText [] =
        ("SELECT ").toList ++ sq :: ';' :: sq :: (("; SELECT 2;").toList) ∧
      c2segs.map (fun s => some (s.bodyText ++ [';'])) =
        [some ((("SELECT ").toList ++ sq :: ';' :: sq :: [';'])),
         some (("SELECT 2;").toList)]) ∧
    ((splitIntoStatements fsEmpty 1 "u" (segsText c2segs ++ leadsText [])).length =
      c2segs.length ∧
    (splitIntoStatements fsEmpty 1 "u" (segsText c2segs ++ leadsText [])).map
      Statement.sql = c2segs.map (fun s => some (s.bodyText ++ [';']))) :=
  ⟨⟨by decide, by decide, by decide⟩,
    C2_quoted_semicolon_no_split fsEmpty 0 "u" c2segs [] (by decide) (by decide)⟩

/-- C6 counterexample: in `SELECT 1 -- hi<NL>;` the `--` occurs
mid-statement, and the whole comment text `-- hi` plus the newline end up
verbatim inside the emitted statement's sql, contradicting the claim that
line-comment characters never appear in any statement's sql. -/
theorem C6_counterexample :
    (splitIntoStatements fsEmpty 1 "u" (("SELECT 1 -- hi\n;").toList)).map
      Statement.sql = [some (("SELECT 1 -- hi\n;").toList)] := by
  decide

/-- C6 (amended): line comments are stripped only where a new statement
could start: for a text of well-formed segments plus trailing trivia,
every statement's sql is exactly its segment body plus `;` — none of the
leading trivia (whitespace, line comments, block comments) appears in any
sql — and a text consisting only of trivia (in particular a standalone
non-directive line comment) yields zero statements. -/
theorem C6_amended_comments_outside (fs : FileSys) (d : Nat) (uri : String)
    (segs : List Seg) (trail : List Lead)
    (hs : segs.all Seg.wf = true) (ht : trail.all Lead.wf = true) :
    (∀ p ∈ (splitIntoStatements fs (d + 1) uri (segsText segs ++ leadsText trail)).zip segs,
      p.1.sql = some (p.2.bodyText ++ [';'])) ∧
    splitIntoStatements fs (d + 1) uri (leadsText trail) = [] := by
  constructor
  · rw [split_segs fs d uri segs trail hs ht]
    intro p hp
    obtain ⟨k, h1, h2, h3, h4, h5⟩ := predicted_mem uri 0 segs p hp
    exact h4
  · have h := split_segs fs d uri [] trail (by decide) ht
    simpa [segsText, predictedStmts] using h

/-- C6 witness: the standalone comment line `-- not a directive` produces
zero statements. -/
theorem C6_witness :
    (leadsText [Lead.line ((" not a directive").toList)] =
      ("-- not a directive\n").toList) ∧
    ((∀ p ∈ (splitIntoStatements fsEmpty 1 "u"
        (segsText [] ++ leadsText [Lead.line ((" not a directive").toList)])).zip
          ([] : List Seg),
      p.1.sql = some (p.2.bodyText ++ [';'])) ∧
    splitIntoStatements fsEmpty 1 "u"
      (leadsText [Lead.line ((" not a directive").toList)]) = []) :=
  ⟨by decide,
    C6_amended_comments_outside fsEmpty 0 "u" [] [Lead.line ((" not a directive").toList)]
      (by decide) (by decide)⟩

/-- C5 counterexample: in `SELECT 1;<NL>-- @template foo<NL>SELECT 2;`
an `@template` directive follows a non-template statement, yet the
splitter does NOT truncate with an error: it returns three statements
(the SELECT, the template marker, the second SELECT), all without error,
contradicting the claim that any `@template` after a non-template
statement truncates the sequence. -/
theorem C5_counterexample :
    (splitIntoStatements fsEmpty 1 "u"
        (("SELECT 1;\n-- @template foo\nSELECT 2;").toList)).map
      (fun s => (s.error, s.template)) =
      [(none, none), (none, some (("foo").toList)), (none, none)] := by
  decide

/-- C5 (amended): the splitter errors on a second `@template` directive
only when its name differs quoting-insensitively from an existing
template statement: (a) two template lines with non-equivalent names
truncate at the second directive with the template error and emit nothing
further; (b) with equivalent names both template statements are kept and
scanning continues normally; (c) a template directive AFTER ordinary
(non-template) statements is accepted without error — the splitter does
not truncate there. -/
theorem C5_amended_template_rules (fs : FileSys) (d : Nat) (uri : String)
    (nmA nmB : List Char) (segs : List Seg) (trail : List Lead)
    (hnA : noNewline nmA = true) (hEA : jsTrimEnd nmA = nmA) (hSA : jsTrim nmA = nmA)
    (hneA : nmA ≠ [])
    (hnB : noNewline nmB = true) (hEB : jsTrimEnd nmB = nmB) (hSB : jsTrim nmB = nmB)
    (hneB : nmB ≠ [])
    (hvA : validateDatabaseName nmA = none) (hvB : validateDatabaseName nmB = none)
    (hs : segs.all Seg.wf = true) (ht : trail.all Lead.wf = true) :
    (quotedEqual nmB nmA = false →
      splitIntoStatements fs (d + 1) uri
          (templateLine nmA ++ (templateLine nmB ++ (segsText segs ++ leadsText trail))) =
        [{ location := ⟨uri, 3, 10 + nmA.length⟩, template := some nmA },
         { location := ⟨uri, 17 + nmA.length, 10 + nmB.length⟩,
           error := some TEMPLATE_DIRECTIVE_ERROR_FIRST }]) ∧
    (quotedEqual nmB nmA = true →
      splitIntoStatements fs (d + 1) uri
          (templateLine nmA ++ (templateLine nmB ++ (segsText segs ++ leadsText trail))) =
        { location := ⟨uri, 3, 10 + nmA.length⟩, template := some nmA } ::
          ({ location := ⟨uri, 17 + nmA.length, 10 + nmB.length⟩, template := some nmB } ::
            predictedStmts uri (28 + nmA.length + nmB.length) segs)) ∧
    (splitIntoStatements fs (d + 1) uri
        (segsText segs ++ (templateLine nmA ++ leadsText trail)) =
      predictedStmts uri 0 segs ++
        [{ location := ⟨uri, (segsText segs).length + 3, 10 + nmA.length⟩,
           template := some nmA }]) := by
  have hb1 := segs_fuel_le segs
  have hb2 := leads_fuel_le trail
  have hcfA : ¬ (templateConflict nmA ([] : List Statement) = true) := by
    simp [templateConflict]
  refine ⟨?_, ?_, ?_⟩
  · intro hq
    unfold splitIntoStatements splitD
    rw [show 2 * (templateLine nmA ++
          (templateLine nmB ++ (segsText segs ++ leadsText trail))).length + 2 =
        ((((2 * (templateLine nmA ++
            (templateLine nmB ++ (segsText segs ++ leadsText trail))).length
          - segsFuel segs - leadsFuel trail) + leadsFuel trail) + segsFuel segs) + 1) + 1
        from by
      simp only [List.length_append]
      omega]
    rw [show initState = (⟨[], 0, [], none, false, false⟩ : ScanState) from rfl]
    rw [goD_template _ _ _ _ _ _ _ _ _ hnA hEA hSA hneA, hvA]
    dsimp only
    rw [if_neg hcfA]
    rw [goD_template _ _ _ _ _ _ _ _ _ hnB hEB hSB hneB, hvB]
    dsimp only
    rw [if_pos (by simp [templateConflict, hasTemplateStmt, hneA, hq])]
    simp only [Nat.zero_add, List.nil_append]
    rw [show 14 + nmA.length + 3 = 17 + nmA.length from by omega]
    simp
  · intro hq
    unfold splitIntoStatements splitD
    rw [show 2 * (templateLine nmA ++
          (templateLine nmB ++ (segsText segs ++ leadsText trail))).length + 2 =
        ((((2 * (templateLine nmA ++
            (templateLine nmB ++ (segsText segs ++ leadsText trail))).length
          - segsFuel segs - leadsFuel trail) + leadsFuel trail) + segsFuel segs) + 1) + 1
        from by
      simp only [List.length_append]
      omega]
    rw [show initState = (⟨[], 0, [], none, false, false⟩ : ScanState) from rfl]
    rw [goD_template _ _ _ _ _ _ _ _ _ hnA hEA hSA hneA, hvA]
    dsimp only
    rw [if_neg hcfA]
    rw [goD_template _ _ _ _ _ _ _ _ _ hnB hEB hSB hneB, hvB]
    dsimp only
    rw [if_neg (by simp [templateConflict, hasTemplateStmt, hneA, hq])]
    rw [show (0 : Nat) + (14 + nmA.length) + (14 + nmB.length) =
      28 + nmA.length + nmB.length from by omega]
    rw [show segsText segs ++ leadsText trail =
      segsText segs ++ (leadsText trail ++ []) from by simp]
    rw [goD_segs _ _ _ _ _ _ _ _ _ hs]
    rw [goD_leads _ _ _ _ _ _ _ _ _ ht]
    rw [goD_nil]
    simp only [Nat.zero_add, List.nil_append]
    rw [if_neg (by simp [jsTrim, jsTrimStart, jsTrimEnd])]
    simp [show 14 + nmA.length + 3 = 17 + nmA.length from by omega]
  · unfold splitIntoStatements splitD
    rw [show 2 * (segsText segs ++ (templateLine nmA ++ leadsText trail)).length + 2 =
        ((((2 * (segsText segs ++ (templateLine nmA ++ leadsText trail)).length + 2
          - segsFuel segs - leadsFuel trail - 1) + leadsFuel trail) + 1) + segsFuel segs)
        from by
      simp only [List.length_append]
      omega]
    rw [show initState = (⟨[], 0, [], none, false, false⟩ : ScanState) from rfl]
    rw [goD_segs _ _ _ _ _ _ _ _ _ hs]
    rw [goD_template _ _ _ _ _ _ _ _ _ hnA hEA hSA hneA, hvA]
    dsimp only
    rw [if_neg (by
      simp only [List.nil_append]
      simp [templateConflict_predicted])]
    rw [show leadsText trail = leadsText trail ++ [] from by simp]
    rw [goD_leads _ _ _ _ _ _ _ _ _ ht]
    rw [goD_nil]
    rw [if_neg (by simp [jsTrim, jsTrimStart, jsTrimEnd])]
    simp [Nat.zero_add]

/-- C5 witness: with name `foo` and its double-quoted form, two template
directives are tolerated (equal names), a conflicting pair errors, and a
template after a plain statement is kept — at the concrete empty segment
list. -/
theorem C5_witness :
    (quotedEqual ('"' :: (("foo").toList ++ ['"'])) (("foo").toList) = true) ∧
    ((quotedEqual ('"' :: (("foo").toList ++ ['"'])) (("foo").toList) = false →
      splitIntoStatements fsEmpty 1 "u"
          (templateLine (("foo").toList) ++ (templateLine ('"' :: (("foo").toList ++ ['"'])) ++
            (segsText [] ++ leadsText []))) =
        [{ location := ⟨"u", 3, 10 + (("foo").toList).length⟩,
           template := some (("foo").toList) },
         { location := ⟨"u", 17 + (("foo").toList).length,
             10 + ('"' :: (("foo").toList ++ ['"'])).length⟩,
           error := some TEMPLATE_DIRECTIVE_ERROR_FIRST }]) ∧
    (quotedEqual ('"' :: (("foo").toList ++ ['"'])) (("foo").toList) = true →
      splitIntoStatements fsEmpty 1 "u"
          (templateLine (("foo").toList) ++ (templateLine ('"' :: (("foo").toList ++ ['"'])) ++
            (segsText [] ++ leadsText []))) =
        { location := ⟨"u", 3, 10 + (("foo").toList).length⟩,
          template := some (("foo").toList) } ::
          ({ location := ⟨"u", 17 + (("foo").toList).length,
               10 + ('"' :: (("foo").toList ++ ['"'])).length⟩,
             template := some ('"' :: (("foo").toList ++ ['"'])) } ::
            predictedStmts "u"
              (28 + (("foo").toList).length + ('"' :: (("foo").toList ++ ['"'])).length) [])) ∧
    (splitIntoStatements fsEmpty 1 "u"
        (segsText [] ++ (templateLine (("foo").toList) ++ leadsText [])) =
      predictedStmts "u" 0 [] ++
        [{ location := ⟨"u", (segsText []).length + 3, 10 + (("foo").toList).length⟩,
           template := some (("foo").toList) }])) :=
  ⟨by decide,
    C5_amended_template_rules fsEmpty 0 "u" (("foo").toList)
      ('"' :: (("foo").toList ++ ['"'])) [] []
      (by decide) (by decide) (by decide) (by decide)
      (by decide) (by decide) (by decide) (by decide)
      (by decide) (by decide) (by decide) (by decide)⟩

set_option maxHeartbeats 1600000 in
/-- C9: when a simple quote (double quote, single quote or backtick) is
opened in a statement and never closed, every remaining character of the
input — semicolons, `--` and `/*` included — is consumed verbatim into
the current sql, no further boundary occurs, and at end of text exactly
one final statement holding the unterminated remainder is emitted (its
Location ends at the offset of the final character). -/
theorem C9_unterminated_quote (fs : FileSys) (d : Nat) (uri : String)
    (segs : List Seg) (ld : List Lead) (body : List Tok) (q : Char) (tail : List Char)
    (hs : segs.all Seg.wf = true) (hl : ld.all Lead.wf = true) (hb : body.all Tok.wf = true)
    (hq : isSimpleQuote q = true) (htail : tail.contains q = false)
    (hso : bodyStartOk ((body.map Tok.render).flatten) = true) :
    splitIntoStatements fs (d + 1) uri
        (segsText segs ++ (leadsText ld ++ ((body.map Tok.render).flatten ++ (q :: tail)))) =
      predictedStmts uri 0 segs ++
        [{ location := ⟨uri, (segsText segs).length + (leadsText ld).length,
             ((body.map Tok.render).flatten).length + tail.length⟩,
           sql := some ((body.map Tok.render).flatten ++ (q :: tail)) }] := by
  have hb1 := segs_fuel_le segs
  have hb2 := leads_fuel_le ld
  have hb3 := toks_fuel_le body
  simp only [isSimpleQuote, Bool.or_eq_true, decide_eq_true_eq] at hq
  have hqw : jsWs q = false := by
    rcases hq with (h | h) | h <;> rw [h] <;> decide
  have hqd : ¬ (q = '-') := by
    rcases hq with (h | h) | h <;> rw [h] <;> decide
  have hqsl : ¬ (q = '/') := by
    rcases hq with (h | h) | h <;> rw [h] <;> decide
  have hq2 : isSimpleQuote q = true := by
    simp only [isSimpleQuote, Bool.or_eq_true, decide_eq_true_eq]
    exact hq
  unfold splitIntoStatements splitD
  rw [show 2 * (segsText segs ++
        (leadsText ld ++ ((body.map Tok.render).flatten ++ (q :: tail)))).length + 2 =
      (((((2 * (segsText segs ++
          (leadsText ld ++ ((body.map Tok.render).flatten ++ (q :: tail)))).length + 2
        - segsFuel segs - leadsFuel ld - (body.map Tok.fuel).sum - tail.length - 2
        + tail.length) + 1) + (body.map Tok.fuel).sum) + 1) + leadsFuel ld) + segsFuel segs
      from by
    simp only [List.length_append, List.length_cons]
    omega]
  rw [show initState = (⟨[], 0, [], none, false, false⟩ : ScanState) from rfl]
  rw [goD_segs _ _ _ _ _ _ _ _ _ hs]
  rw [goD_leads _ _ _ _ _ _ _ _ _ hl]
  cases body with
  | nil =>
    simp only [List.map_nil, List.flatten_nil, List.sum_nil, List.nil_append, Nat.add_zero,
      List.length_nil, Nat.zero_add]
    rw [goD_start _ _ _ _ _ _ _ _ _ hqw (by simp [hqd]) (by simp [hqsl])]
    rw [goD_quoteOpen _ _ _ _ _ _ _ _ _ _ hq2]
    rw [goD_quoteRun _ _ _ _ _ _ _ _ _ _ htail]
    rw [goD_nil]
    rw [if_pos (jsTrim_ne_of_mem _ q (by simp) hqw)]
    dsimp only
    rw [show (segsText segs).length + (leadsText ld).length + 1 + tail.length - 1 -
        ((segsText segs).length + (leadsText ld).length) = tail.length from by omega]
    simp
  | cons t ts =>
    obtain ⟨c0, tr, hct⟩ : ∃ c0 tr, t.render = c0 :: tr := by
      cases t with
      | plain c => exact ⟨c, [], rfl⟩
      | quoted qq inner => exact ⟨qq, inner ++ [qq], rfl⟩
      | dollar tag inner =>
        exact ⟨'$', (tag ++ ['$']) ++ inner ++ ('$' :: (tag ++ ['$'])), by simp [Tok.render]⟩
    have hbflat : ((t :: ts).map Tok.render).flatten =
        c0 :: (tr ++ (ts.map Tok.render).flatten) := by
      simp [hct]
    rw [hbflat] at hso
    simp only [bodyStartOk, Bool.and_eq_true, Bool.not_eq_true'] at hso
    have h2 : (c0 = '-' &&
        nextIs ((tr ++ (ts.map Tok.render).flatten) ++ (q :: tail)) '-') = false := by
      rw [nextIs_append_cons _ _ _ _ (fun h => hqd h.symm)]
      exact hso.1.2
    have h3 : (c0 = '/' &&
        nextIs ((tr ++ (ts.map Tok.render).flatten) ++ (q :: tail)) '*') = false := by
      rw [nextIs_append_cons _ _ _ _ (by
        intro h
        rcases hq with (hh | hh) | hh <;> rw [hh] at h <;> cases h)]
      exact hso.2
    rw [hbflat]
    rw [show (c0 :: (tr ++ (ts.map Tok.render).flatten)) ++ (q :: tail) =
      c0 :: ((tr ++ (ts.map Tok.render).flatten) ++ (q :: tail)) from by simp]
    rw [goD_start _ _ _ _ _ _ _ _ _ hso.1.1 h2 h3]
    rw [show c0 :: ((tr ++ (ts.map Tok.render).flatten) ++ (q :: tail)) =
      ((t :: ts).map Tok.render).flatten ++ (q :: tail) from by simp [hct]]
    rw [goD_body _ _ _ _ _ _ _ _ _ _ hb]
    rw [goD_quoteOpen _ _ _ _ _ _ _ _ _ _ hq2]
    rw [goD_quoteRun _ _ _ _ _ _ _ _ _ _ htail]
    rw [goD_nil]
    rw [if_pos (jsTrim_ne_of_mem _ q (by simp) hqw)]
    dsimp only
    simp only [Nat.zero_add, List.nil_append]
    rw [show (segsText segs).length + (leadsText ld).length +
        (List.map Tok.render (t :: ts)).flatten.length + 1 + tail.length - 1 -
        ((segsText segs).length + (leadsText ld).length) =
      (List.map Tok.render (t :: ts)).flatten.length + tail.length from by omega]
    simp [hct]

/-- C9 witness: `SELECT <q>abc; -- x` (with `<q>` the single quote, never
closed) yields exactly one statement whose sql is the whole remainder
including the `;` and the `--`. -/
theorem C9_witness :
    (((plainToks (("SELECT ").toList)).map Tok.render).flatten = ("SELECT ").toList ∧
      (("abc; -- x").toList).contains sq = false) ∧
    splitIntoStatements fsEmpty 1 "u"
        (segsText [] ++ (leadsText [] ++
          (((plainToks (("SELECT ").toList)).map Tok.render).flatten ++
            (sq :: (("abc; -- x").toList))))) =
      predictedStmts "u" 0 [] ++
        [{ location := ⟨"u", (segsText ([] : List Seg)).length + (leadsText []).length,
             (((plainToks (("SELECT ").toList)).map Tok.render).flatten).length +
               (("abc; -- x").toList).length⟩,
           sql := some (((plainToks (("SELECT ").toList)).map Tok.render).flatten ++
             (sq :: (("abc; -- x").toList))) }] :=
  ⟨⟨by decide, by decide⟩,
    C9_unterminated_quote fsEmpty 0 "u" [] [] (plainToks (("SELECT ").toList)) sq
      (("abc; -- x").toList) (by decide) (by decide) (by decide) (by decide) (by decide)
      (by decide)⟩

/-- C10: `validateDatabaseName` throws iff the name is empty, contains a
null byte, is quoted with an internal `"` not doubled, or is unquoted and
fails `/^[a-zA-Z_][a-zA-Z0-9_]*$/`; in particular the quoted empty name
`""` is accepted while the empty string is rejected. -/
theorem C10_validateDatabaseName_characterisation :
    (∀ name : List Char,
      (validateDatabaseName name).isSome ↔
        (name = [] ∨ (Char.ofNat 0) ∈ name ∨
          (claimIsQuoted name ∧ ¬ quotesEscaped ((name.drop 1).dropLast)) ∨
          (¬ claimIsQuoted name ∧ ¬ matchesUnquotedName name)))
    ∧ validateDatabaseName ['"', '"'] = none
    ∧ (validateDatabaseName []).isSome := by
  refine ⟨?_, by decide, by decide⟩
  intro name
  match name with
  | [] => simp [validateDatabaseName]
  | c :: rest =>
    have hnil : (c :: rest) ≠ [] := by simp
    have hlast : (c :: rest).getLast? = some ((c :: rest).getLast hnil) :=
      List.getLast?_eq_getLast _ hnil
    have hlastI : (c :: rest).getLastI = (c :: rest).getLast hnil := by
      simp [List.getLastI_eq_getLast?, hlast]
    have hquoted : claimIsQuoted (c :: rest) ↔ (c = '"' ∧ (c :: rest).getLastI = '"') := by
      rw [claimIsQuoted, hlastI, hlast]
      simp
    simp only [validateDatabaseName, matchesUnquotedName]
    by_cases h0 : (Char.ofNat 0) ∈ c :: rest
    · simp [h0, List.elem_eq_mem]
    · have hc : ((c :: rest).contains (Char.ofNat 0)) = false := by
        simp [List.contains, List.elem_eq_mem, h0]
      by_cases hcq : c = '"' <;> by_cases hlq : (c :: rest).getLastI = '"' <;>
        by_cases he : quotesEscaped ((c :: rest).drop 1).dropLast <;>
        by_cases hp : (isIdentStart c && rest.all isIdentCont) = true <;>
        simp_all [List.headI, hquoted]

/-- C7 counterexample: the claim locates the unreachable (Hint) range as
"starting immediately after the statement's closing `;`".  On the claim's
own input the closing `;` sits at offset 31 (the statement `Location`
covers offsets `[0, 31)`, excluding the semicolon), and the Hint-severity
unreachable diagnostic starts at offset 31 — at the semicolon — not at 32,
the first offset after it. -/
theorem C7_counterexample :
    c7stmt.location = ⟨"file.sql", 0, 31⟩ ∧
    c7text.get? 31 = some ';' ∧
    (∀ d ∈ c7out.1, d.severity = Severity.hint → d.startOff = 31) ∧
    ¬ (∃ d ∈ c7out.1, d.severity = Severity.hint ∧ d.startOff = 32) := by
  decide

/-- C7 amended: on statement text `SELECT * FROM foo WHERE bar = 1;` and
backend message `column "bar" does not exist` with no position, the error
locator (under the default `warnWholeStatement = true`) emits exactly: the
Hint `unreachable statements` range from the closing `;` (offset
`startOffset + length = 31`, the statement span excluding its semicolon)
to the offset of the unit's last character; a hard-error span exactly
covering the first occurrence of `bar` (offsets 24–27); and the
whole-statement warning diagnostic; and it returns `false`. -/
theorem C7_amended_locator_output :
    c7out = ([
      { uri := "file.sql", startOff := 31, endOff := 31,
        message := ("unreachable statements").toList,
        severity := Severity.hint, unnecessary := true },
      { uri := "file.sql", startOff := 24, endOff := 27,
        message := c7msg, severity := Severity.error },
      { uri := "file.sql", startOff := 0, endOff := 31,
        message := ("In this statement: ").toList ++ c7msg ++ [Char.ofNat 125],
        severity := Severity.warning }], false)
    ∧ (c7text.drop 24).take 3 = ("bar").toList
    ∧ idxOf? (("bar").toList) c7text = some 24 := by
  decide

/-- C8: when no quoted token can be extracted from the backend message and
no numeric position is supplied, the error locator emits only the
whole-statement diagnostic at Error severity (message including the hint
when present) plus the unreachable range — no narrower span; and on every
failure it returns `false` and produces at least one diagnostic. -/
theorem C8_whole_statement_fallback :
    (∀ (wws : Bool) (fileLen : String → Nat) (stmt : Statement) (message : List Char)
        (hint : Option (List Char)),
        findQuoted message = none → stmt.includedAt = none →
        handleShouldContinue wws fileLen stmt message hint none =
          ([buildUnreachable fileLen stmt.location,
            { uri := stmt.location.uri, startOff := stmt.location.startOffset,
              endOff := stmt.location.startOffset + stmt.location.length,
              message := match hint with
                | some h => if h = [] then message else message ++ ("; Hint: ").toList ++ h
                | none => message,
              severity := Severity.error }], false))
    ∧ (∀ (wws : Bool) (fileLen : String → Nat) (stmt : Statement) (message : List Char)
        (hint : Option (List Char)) (position : Option Int),
        (handleShouldContinue wws fileLen stmt message hint position).2 = false ∧
        (handleShouldContinue wws fileLen stmt message hint position).1 ≠ []) := by
  constructor
  · intro wws fileLen stmt message hint hq hinc
    simp [handleShouldContinue, hq, hinc, buildUnreachable]
  · intro wws fileLen stmt message hint position
    cases hq : findQuoted message <;> cases position <;>
      simp [handleShouldContinue, hq]

/-- C8 witness: the fallback theorem applied at a concrete statement and
message with neither a quoted token nor a position. -/
theorem C8_witness :
    handleShouldContinue true c7fileLen c7stmt (("syntax error at end of input").toList)
        none none =
      ([buildUnreachable c7fileLen c7stmt.location,
        { uri := c7stmt.location.uri, startOff := c7stmt.location.startOffset,
          endOff := c7stmt.location.startOffset + c7stmt.location.length,
          message := ("syntax error at end of input").toList,
          severity := Severity.error }], false) := by
  exact C8_whole_statement_fallback.1 true c7fileLen c7stmt
    (("syntax error at end of input").toList) none (by decide) (by decide)


end Pglint
